import Mathlib

/-!
# Library circulation engine

A shallow embedding of `library.220701095.c++`: the catalogue items (`Book` and its
subclasses), the patrons (`User`), the loan ledger (`LoanManagement`), the reservation
queues (`ReservationSystem`) and the circulation desk (`LibraryManagementSystem`).

Modelling conventions.

* `std::unordered_map<int, V>` is an association list `Map V` with `find`, `set`
  (`m[k] = v`) and `erase`.  Iteration order is never observed by the operations below.
* `std::queue<int>` is a `List Int`, head first.
* Objects passed by reference (`User&`, `Book&`) are passed by value and returned updated;
  the desk writes them back into its registries.
* `time(nullptr)` is an explicit argument `now`; `time_t` is `Int` (seconds).
* `double` is modelled by exact rationals `ℚ` in the state machine.  Where a statement is
  about the exact amount of a fine or of a balance, the arithmetic of `double` is modelled
  with its rounding (IEEE 754 binary64, round to nearest, ties to even) by `roundDouble`,
  in the definitions whose names end in `Double`; values beyond the largest finite `double`
  are out of the reach of a 64-bit `time_t` and are not modelled.
* `int` is `Int`.  The only counter that is incremented, `borrowedCount`, is incremented
  under the guard `borrowedCount < maxBorrow`, so it cannot overflow there.  The narrowing
  cast `(int)q.size()` is modelled by `sizeToInt`.
* Console output is the list of `Output` events an operation emits.
-/

namespace Library

/-! ## Association lists standing for `std::unordered_map<int, V>` -/

/-- An `unordered_map<int, V>`: a list of key/value pairs. -/
abbrev Map (V : Type) := List (Int × V)

namespace Map

variable {V : Type}

/-- Lookup `m.find(k)`: the value stored under `k`, if any. -/
def find : Map V → Int → Option V
  | [], _ => none
  | (k', v) :: m, k => if k' = k then some v else find m k

/-- Assignment `m[k] = v`: overwrite the value under `k`, or add the pair when `k` is absent. -/
def set : Map V → Int → V → Map V
  | [], k, v => [(k, v)]
  | (k', v') :: m, k, v => if k' = k then (k, v) :: m else (k', v') :: set m k v

/-- Removal `m.erase(k)`: drop the entry stored under `k`. -/
def erase : Map V → Int → Map V
  | [], _ => []
  | (k', v') :: m, k => if k' = k then erase m k else (k', v') :: erase m k

/-- The keys of the map, in list order. -/
def keys (m : Map V) : List Int := m.map Prod.fst

end Map

/-! ## Console output -/

/-- One line written to the console. -/
inductive Output
  /-- A call `ExceptionHandler::handle(msg)`, printed as `Error: msg`. -/
  | error (msg : String)
  /-- A call `Logger::log(msg)`. -/
  | log (msg : String)
  /-- The call `Logger::log("Late return fine: " + to_string(fine))`. -/
  | lateReturnFine (fine : ℚ)
  /-- The line `Notification: User nextUser can now borrow book bookId`. -/
  | notification (nextUser bookId : Int)
  deriving DecidableEq

/-- Whether an output line is an error report. -/
def Output.isError : Output → Bool
  | .error _ => true
  | _ => false

/-! ## Catalogue items -/

/-- The dynamic class of a `Book` object, with the fields the subclass adds. -/
inductive BookClass
  | Book
  | TextBook (level field : String)
  | Magazine (issueNumber : Int)
  | ReferenceBook
  deriving DecidableEq

/-- A `Book` object (of any subclass). -/
structure Book where
  cls : BookClass
  id : Int
  title : String
  author : String
  category : String
  publishDate : String
  pages : Int
  isAvailable : Bool
  deriving DecidableEq

/-- The constructors `Book(...)`, `TextBook(...)`, `Magazine(...)`, `ReferenceBook(...)`:
every one of them initialises `isAvailable(true)`. -/
def Book.new (cls : BookClass) (i : Int) (t a c pd : String) (p : Int) : Book :=
  { cls := cls, id := i, title := t, author := a, category := c, publishDate := pd,
    pages := p, isAvailable := true }

def Book.getId (b : Book) : Int := b.id

def Book.available (b : Book) : Bool := b.isAvailable

def Book.setAvailable (b : Book) (av : Bool) : Book := { b with isAvailable := av }

/-- The virtual `getFineRate()`. -/
def Book.getFineRate (b : Book) : ℚ :=
  match b.cls with
  | .Book => 1
  | .TextBook _ _ => 1 / 2
  | .Magazine _ => 7 / 10
  | .ReferenceBook => 0

/-- The virtual `canBeBorrowed()`. -/
def Book.canBeBorrowed (b : Book) : Bool :=
  match b.cls with
  | .ReferenceBook => false
  | _ => true

/-! ## Patrons -/

inductive UserType
  | REGULAR
  | LIBRARIAN
  deriving DecidableEq

/-- A `User` object (a `Librarian` is a `User` built with `LIBRARIAN`). -/
structure User where
  userId : Int
  username : String
  password : String
  type : UserType
  maxBorrow : Int
  borrowDays : Int
  borrowedCount : Int
  fines : ℚ
  deriving DecidableEq

/-- The constructor `User(id, uname, pwd, t)`. -/
def User.new (id : Int) (uname pwd : String) (t : UserType) : User :=
  { userId := id, username := uname, password := pwd, type := t,
    maxBorrow := if t = UserType.REGULAR then 5 else 1000,
    borrowDays := if t = UserType.REGULAR then 14 else 365,
    borrowedCount := 0, fines := 0 }

/-- The constructor `Librarian(id, uname, pwd)`. -/
def Librarian.new (id : Int) (uname pwd : String) : User :=
  User.new id uname pwd UserType.LIBRARIAN

def User.getUserId (u : User) : Int := u.userId

def User.canBorrow (u : User) : Bool :=
  decide (u.borrowedCount < u.maxBorrow) && decide (u.fines < 100)

def User.borrowBook (u : User) : User := { u with borrowedCount := u.borrowedCount + 1 }

def User.returnBook (u : User) : User :=
  if u.borrowedCount > 0 then { u with borrowedCount := u.borrowedCount - 1 } else u

def User.getBorrowDays (u : User) : Int := u.borrowDays

def User.addFine (u : User) (amount : ℚ) : User := { u with fines := u.fines + amount }

def User.getFines (u : User) : ℚ := u.fines

def User.payFine (u : User) (amount : ℚ) : User :=
  let fines := u.fines - amount
  { u with fines := if fines < 0 then 0 else fines }

/-! ## Loan ledger -/

structure LoanRecord where
  bookId : Int
  userId : Int
  borrowDate : Int
  returnDate : Int
  deriving DecidableEq

structure LoanManagement where
  activeLoans : Map LoanRecord
  deriving DecidableEq

/-- What a call of `loanBook` / `returnBook` leaves behind: the returned `bool`, the ledger,
the two objects passed by reference, and the console output. -/
structure LoanResult where
  ok : Bool
  lm : LoanManagement
  user : User
  book : Book
  out : List Output
  deriving DecidableEq

/-- Method `LoanManagement::calculateFine`. -/
def LoanManagement.calculateFine (book : Book) (borrowDate returnDate : Int) : ℚ :=
  let daysLate : ℚ := ((returnDate - borrowDate : Int) : ℚ) / (60 * 60 * 24) - 14
  if daysLate ≤ 0 then 0
  else
    let rate := book.getFineRate
    daysLate * rate

/-- Method `LoanManagement::loanBook`, with `now` the value of `time(nullptr)`. -/
def LoanManagement.loanBook (lm : LoanManagement) (bookId : Int) (user : User) (book : Book)
    (now : Int) : LoanResult :=
  if !book.canBeBorrowed then
    ⟨false, lm, user, book, [.error "Book cannot be borrowed (reference book)."]⟩
  else if !book.available then
    ⟨false, lm, user, book, [.error "Book is not available."]⟩
  else if !user.canBorrow then
    ⟨false, lm, user, book, [.error "User cannot borrow more books or has high fines."]⟩
  else
    let record : LoanRecord := ⟨bookId, user.getUserId, now, 0⟩
    ⟨true, ⟨lm.activeLoans.set bookId record⟩, user.borrowBook, book.setAvailable false,
      [.log "Book borrowed successfully."]⟩

/-- Method `LoanManagement::returnBook`, with `now` the value of `time(nullptr)`. -/
def LoanManagement.returnBook (lm : LoanManagement) (bookId : Int) (user : User) (book : Book)
    (now : Int) : LoanResult :=
  match lm.activeLoans.find bookId with
  | none => ⟨false, lm, user, book, [.error "No active loan for this book."]⟩
  | some record =>
    if record.userId ≠ user.getUserId then
      ⟨false, lm, user, book, [.error "This user did not borrow this book."]⟩
    else
      -- `record` is a reference into the map: the assignment updates the stored record
      let loans1 := lm.activeLoans.set bookId { record with returnDate := now }
      let fine := LoanManagement.calculateFine book record.borrowDate now
      let user1 := if fine > 0 then user.addFine fine else user
      let out1 := if fine > 0 then [Output.lateReturnFine fine] else []
      ⟨true, ⟨loans1.erase bookId⟩, user1.returnBook, book.setAvailable true,
        out1 ++ [.log "Book returned successfully."]⟩

/-! ## Reservation queues -/

structure ReservationSystem where
  reservations : Map (List Int)
  deriving DecidableEq

/-- The constant member `maxQueueSize`. -/
def ReservationSystem.maxQueueSize : Int := 10

/-- The cast `(int)q.size()` of an unsigned size to a 32-bit `int`. -/
def sizeToInt (n : Nat) : Int :=
  if n % 2 ^ 32 < 2 ^ 31 then ((n % 2 ^ 32 : Nat) : Int) else ((n % 2 ^ 32 : Nat) : Int) - 2 ^ 32

/-- The access `reservations[bookId]` used as an lvalue: a missing key gets an empty queue. -/
def ReservationSystem.touch (res : Map (List Int)) (bookId : Int) : Map (List Int) :=
  match res.find bookId with
  | some _ => res
  | none => res.set bookId []

/-- Method `ReservationSystem::reserveBook`: the returned `bool`, the new state and the output.
The loop `for (int uid : q)` is read as a scan of the entries of the queue. -/
def ReservationSystem.reserveBook (rs : ReservationSystem) (bookId userId : Int) :
    Bool × ReservationSystem × List Output :=
  let res1 := ReservationSystem.touch rs.reservations bookId
  let q := (res1.find bookId).getD []
  if sizeToInt q.length ≥ ReservationSystem.maxQueueSize then
    (false, ⟨res1⟩, [.error "Reservation queue is full."])
  else if q.any (fun uid => uid == userId) then
    (false, ⟨res1⟩, [.error "User has already reserved this book."])
  else
    (true, ⟨res1.set bookId (q ++ [userId])⟩, [.log "Book reserved successfully."])

/-- Method `ReservationSystem::notifyNextUser`. -/
def ReservationSystem.notifyNextUser (rs : ReservationSystem) (bookId : Int) :
    ReservationSystem × List Output :=
  match rs.reservations.find bookId with
  | none => (rs, [])
  | some [] => (rs, [])
  | some (nextUser :: rest) =>
    (⟨rs.reservations.set bookId rest⟩, [.notification nextUser bookId])

/-- The loop of `cancelReservation`: pop the front of the old queue until it is empty,
pushing every entry other than `userId` onto `newQueue`. -/
def ReservationSystem.drain : List Int → Int → List Int → List Int
  | [], _, newQueue => newQueue
  | uid :: rest, userId, newQueue =>
    ReservationSystem.drain rest userId (if uid ≠ userId then newQueue ++ [uid] else newQueue)

/-- Method `ReservationSystem::cancelReservation`. -/
def ReservationSystem.cancelReservation (rs : ReservationSystem) (bookId userId : Int) :
    ReservationSystem × List Output :=
  match rs.reservations.find bookId with
  | none => (rs, [])
  | some q =>
    (⟨rs.reservations.set bookId (ReservationSystem.drain q userId [])⟩,
      [.log "Reservation cancelled if existed."])

/-! ## Circulation desk -/

structure LibraryManagementSystem where
  users : Map User
  books : Map Book
  loanManagement : LoanManagement
  reservationSystem : ReservationSystem
  deriving DecidableEq

namespace LibraryManagementSystem

/-- The desk right after construction: every container is empty. -/
def empty : LibraryManagementSystem :=
  { users := [], books := [], loanManagement := ⟨[]⟩, reservationSystem := ⟨[]⟩ }

/-- Method `LibraryManagementSystem::addUser`. -/
def addUser (st : LibraryManagementSystem) (user : User) :
    LibraryManagementSystem × List Output :=
  match st.users.find user.getUserId with
  | some _ => (st, [.error "User ID already exists."])
  | none => ({ st with users := st.users.set user.getUserId user }, [.log "User added."])

/-- Method `LibraryManagementSystem::addBook`. -/
def addBook (st : LibraryManagementSystem) (book : Book) :
    LibraryManagementSystem × List Output :=
  match st.books.find book.getId with
  | some _ => (st, [.error "Book ID already exists."])
  | none => ({ st with books := st.books.set book.getId book }, [.log "Book added."])

/-- Method `LibraryManagementSystem::borrowBook`. -/
def borrowBook (st : LibraryManagementSystem) (userId bookId now : Int) :
    LibraryManagementSystem × List Output :=
  match st.users.find userId with
  | none => (st, [.error "User not found."])
  | some user =>
    match st.books.find bookId with
    | none => (st, [.error "Book not found."])
    | some book =>
      let r := st.loanManagement.loanBook bookId user book now
      ({ users := st.users.set userId r.user, books := st.books.set bookId r.book,
         loanManagement := r.lm, reservationSystem := st.reservationSystem },
        r.out ++ (if r.ok then [.log "Book borrowed successfully."] else []))

/-- Method `LibraryManagementSystem::returnBook`. -/
def returnBook (st : LibraryManagementSystem) (userId bookId now : Int) :
    LibraryManagementSystem × List Output :=
  match st.users.find userId with
  | none => (st, [.error "User not found."])
  | some user =>
    match st.books.find bookId with
    | none => (st, [.error "Book not found."])
    | some book =>
      let r := st.loanManagement.returnBook bookId user book now
      let n := if r.ok then st.reservationSystem.notifyNextUser bookId
               else (st.reservationSystem, [])
      ({ users := st.users.set userId r.user, books := st.books.set bookId r.book,
         loanManagement := r.lm, reservationSystem := n.1 },
        r.out ++ n.2)

/-- Method `LibraryManagementSystem::reserveBook`. -/
def reserveBook (st : LibraryManagementSystem) (userId bookId : Int) :
    LibraryManagementSystem × List Output :=
  match st.users.find userId with
  | none => (st, [.error "User not found."])
  | some _ =>
    match st.books.find bookId with
    | none => (st, [.error "Book not found."])
    | some _ =>
      let r := st.reservationSystem.reserveBook bookId userId
      ({ st with reservationSystem := r.2.1 }, r.2.2)

end LibraryManagementSystem

/-- A request to the desk.  `addUser` and `addBook` receive an object fresh from its
constructor, as `enterUsers` and `enterBooks` pass them. -/
inductive Op
  | addUser (id : Int) (uname pwd : String) (t : UserType)
  | addBook (cls : BookClass) (i : Int) (t a c pd : String) (p : Int)
  | borrowBook (userId bookId now : Int)
  | returnBook (userId bookId now : Int)
  | reserveBook (userId bookId : Int)

/-- Serve one request. -/
def LibraryManagementSystem.step (st : LibraryManagementSystem) :
    Op → LibraryManagementSystem × List Output
  | .addUser id uname pwd t => st.addUser (User.new id uname pwd t)
  | .addBook cls i t a c pd p => st.addBook (Book.new cls i t a c pd p)
  | .borrowBook userId bookId now => st.borrowBook userId bookId now
  | .returnBook userId bookId now => st.returnBook userId bookId now
  | .reserveBook userId bookId => st.reserveBook userId bookId

/-- Serve a sequence of requests, left to right. -/
def LibraryManagementSystem.run (st : LibraryManagementSystem) : List Op → LibraryManagementSystem
  | [] => st
  | op :: ops => LibraryManagementSystem.run (st.step op).1 ops

/-- The states the desk can be in after some sequence of requests, starting empty. -/
def Reachable (st : LibraryManagementSystem) : Prop :=
  ∃ ops : List Op, LibraryManagementSystem.empty.run ops = st

/-- The number of records in the ledger whose `userId` is `uid`. -/
def loanCount (m : Map LoanRecord) (uid : Int) : Nat :=
  (m.filter (fun e => decide (e.2.userId = uid))).length

/-- A request is rejected when its console output carries an error report. -/
def rejected (out : List Output) : Bool := out.any Output.isError

/-! ## Sample data -/

/-- A standard patron, fresh from the constructor. -/
def ann : User := User.new 1 "ann" "pw" UserType.REGULAR

/-- An extended-privilege patron, fresh from the constructor. -/
def lib : User := Librarian.new 2 "lib" "pw"

/-- A plain `Book` (fine rate 1.0). -/
def novel : Book := Book.new BookClass.Book 8 "novel" "a" "c" "d" 300

/-- A `TextBook` (fine rate 0.5). -/
def algebra : Book := Book.new (BookClass.TextBook "l" "f") 7 "algebra" "a" "c" "d" 100

/-- A `ReferenceBook`. -/
def atlas : Book := Book.new BookClass.ReferenceBook 9 "atlas" "a" "c" "d" 50

/-- Two patrons and three items are registered, then patron 1 borrows item 7 at time 0. -/
def sampleOps : List Op :=
  [ .addUser 1 "ann" "pw" UserType.REGULAR,
    .addUser 2 "lib" "pw" UserType.LIBRARIAN,
    .addBook (BookClass.TextBook "l" "f") 7 "algebra" "a" "c" "d" 100,
    .addBook BookClass.Book 8 "novel" "a" "c" "d" 300,
    .addBook BookClass.ReferenceBook 9 "atlas" "a" "c" "d" 50,
    .borrowBook 1 7 0 ]

/-- The desk after `sampleOps`. -/
def sampleDesk : LibraryManagementSystem := LibraryManagementSystem.empty.run sampleOps

/-- The reservation queue of an item; an item that has no queue yet has the empty one. -/
def ReservationSystem.queue (rs : ReservationSystem) (bookId : Int) : List Int :=
  (rs.reservations.find bookId).getD []

/-- Nine patrons wait for item 7. -/
def nineWaiting : ReservationSystem := ⟨[(7, [11, 12, 13, 14, 15, 16, 17, 18, 19])]⟩

/-- An extended-privilege patron is registered with a `TextBook` and borrows it at time 0. -/
def libBorrowsOps : List Op :=
  [ .addUser 2 "lib" "pw" UserType.LIBRARIAN,
    .addBook (BookClass.TextBook "l" "f") 7 "algebra" "a" "c" "d" 100,
    .borrowBook 2 7 0 ]

/-- The consistency conditions that tie the desk's registries to its ledger. -/
structure DeskInv (st : LibraryManagementSystem) : Prop where
  userKey : ∀ id u, st.users.find id = some u → u.userId = id
  bookKey : ∀ id b, st.books.find id = some b → b.id = id
  avail : ∀ id b, st.books.find id = some b →
    (b.isAvailable = false ↔ (st.loanManagement.activeLoans.find id).isSome)
  loanBook : ∀ e ∈ st.loanManagement.activeLoans, (st.books.find e.1).isSome
  loanUser : ∀ e ∈ st.loanManagement.activeLoans, (st.users.find e.2.userId).isSome
  nodup : (Map.keys st.loanManagement.activeLoans).Nodup
  count : ∀ id u, st.users.find id = some u →
    u.borrowedCount = (loanCount st.loanManagement.activeLoans id : Int)
  refAvail : ∀ id b, st.books.find id = some b → b.canBeBorrowed = false → b.isAvailable = true

/-- Reserve the patrons of a list for one item, one call of `reserveBook` after the other;
the returned `bool` and the output of every call are kept, first call first. -/
def ReservationSystem.reserveAll (rs : ReservationSystem) (bookId : Int) :
    List Int → ReservationSystem × List (Bool × List Output)
  | [] => (rs, [])
  | p :: ps =>
    ((ReservationSystem.reserveAll (rs.reserveBook bookId p).2.1 bookId ps).1,
      ((rs.reserveBook bookId p).1, (rs.reserveBook bookId p).2.2)
        :: (ReservationSystem.reserveAll (rs.reserveBook bookId p).2.1 bookId ps).2)

/-- A call of one of the three public methods of `ReservationSystem`. -/
inductive ReservationOp
  | reserveBook (bookId userId : Int)
  | notifyNextUser (bookId : Int)
  | cancelReservation (bookId userId : Int)

/-- The reservation system right after construction. -/
def ReservationSystem.empty : ReservationSystem := ⟨[]⟩

/-- Serve one call. -/
def ReservationSystem.step (rs : ReservationSystem) : ReservationOp → ReservationSystem
  | .reserveBook bookId userId => (rs.reserveBook bookId userId).2.1
  | .notifyNextUser bookId => (rs.notifyNextUser bookId).1
  | .cancelReservation bookId userId => (rs.cancelReservation bookId userId).1

/-- Serve a sequence of calls, left to right. -/
def ReservationSystem.run (rs : ReservationSystem) : List ReservationOp → ReservationSystem
  | [] => rs
  | op :: ops => ReservationSystem.run (rs.step op) ops

/-- The states a reservation system can be in after some sequence of calls, starting empty. -/
def QueueReachable (rs : ReservationSystem) : Prop :=
  ∃ ops : List ReservationOp, ReservationSystem.empty.run ops = rs

/-- Whether the `loanManagement.returnBook` call inside the desk's `returnBook` is reached
and returns `true`: both IDs are registered and the ledger accepts the return. -/
def LibraryManagementSystem.settles (st : LibraryManagementSystem) (userId bookId now : Int) :
    Bool :=
  match st.users.find userId, st.books.find bookId with
  | some user, some book => (st.loanManagement.returnBook bookId user book now).ok
  | _, _ => false

/-- The outcome of call number `j + 1` in a run of reservations against the capacity of 10:
success while `j + 1 ≤ 10`, the queue-full error afterwards. -/
def capacityOutcome (j : Nat) : Bool × List Output :=
  if j + 1 ≤ 10 then (true, [.log "Book reserved successfully."])
  else (false, [.error "Reservation queue is full."])

/-- Eleven distinct patrons. -/
def elevenPatrons : List Int := [1, 2, 3, 4, 5, 6, 7, 8, 9, 10, 11]

/-- Every queue of the system holds at most 10 entries, none of them twice. -/
def QueueInv (rs : ReservationSystem) : Prop :=
  ∀ bookId q, rs.reservations.find bookId = some q → q.length ≤ 10 ∧ q.Nodup

/-- Calls that reserve, notify and cancel on item 7. -/
def sampleQueueOps : List ReservationOp :=
  [ .reserveBook 7 1, .reserveBook 7 2, .reserveBook 7 1, .notifyNextUser 7,
    .reserveBook 7 3, .cancelReservation 7 2 ]

/-- Patrons 4, 5, 4, 6 listed for item 7 and patron 9 for item 8 (a state built by hand, with
a repeated entry, to exercise `cancelReservation`). -/
def handQueues : ReservationSystem := ⟨[(7, [4, 5, 4, 6]), (8, [9])]⟩

/-- The bounds on a registered patron's loan counter: `maxBorrow` is the value the
constructor fixed for the patron's type, and `borrowedCount` lies between 0 and it. -/
def TierInv (st : LibraryManagementSystem) : Prop :=
  ∀ id u, st.users.find id = some u →
    u.maxBorrow = (if u.type = UserType.REGULAR then 5 else 1000) ∧
      0 ≤ u.borrowedCount ∧ u.borrowedCount ≤ u.maxBorrow

/-- The sample desk after patron 2 has reserved item 7, which patron 1 holds. -/
def reservedDesk : LibraryManagementSystem :=
  LibraryManagementSystem.empty.run (sampleOps ++ [.reserveBook 2 7])

/-- Round a rational to the nearest integer, a tie going to the even neighbour. -/
def roundHalfEven (y : ℚ) : Int :=
  if y - (Int.floor y : ℚ) < 1 / 2 then Int.floor y
  else if 1 / 2 < y - (Int.floor y : ℚ) then Int.floor y + 1
  else if Int.floor y % 2 = 0 then Int.floor y else Int.floor y + 1

/-- The binary exponent of the last place of the `double` nearest to `x`: 52 below the
exponent of `x`, and never below that of the subnormal numbers. -/
def ulpExp (x : ℚ) : Int := max (Int.log 2 |x|) (-1022) - 52

/-- The `double` nearest to `x`: the result of an arithmetic operation on `double`, or of
reading a decimal literal, whose exact value is `x`. -/
def roundDouble (x : ℚ) : ℚ := (roundHalfEven (x / 2 ^ ulpExp x) : ℚ) * 2 ^ ulpExp x

/-- The virtual `getFineRate()` with the `double` each literal denotes. -/
def Book.getFineRateDouble (b : Book) : ℚ :=
  match b.cls with
  | .Book => roundDouble 1
  | .TextBook _ _ => roundDouble (1 / 2)
  | .Magazine _ => roundDouble (7 / 10)
  | .ReferenceBook => roundDouble 0

/-- Method `User::addFine` with the rounding of `fines += amount`. -/
def User.addFineDouble (u : User) (amount : ℚ) : User :=
  { u with fines := roundDouble (u.fines + amount) }

/-- Method `LoanManagement::calculateFine` with the rounding of every operation: `difftime`
gives the difference of the two times as a `double`, which is divided by 86400, reduced by
14 and, when positive, multiplied by the rate. -/
def LoanManagement.calculateFineDouble (book : Book) (borrowDate returnDate : Int) : ℚ :=
  let daysLate : ℚ :=
    roundDouble
      (roundDouble (roundDouble ((returnDate - borrowDate : Int) : ℚ) / (60 * 60 * 24)) - 14)
  if daysLate ≤ 0 then 0
  else
    let rate := book.getFineRateDouble
    roundDouble (daysLate * rate)

/-- Method `LoanManagement::returnBook` with the fine and the balance computed in `double`. -/
def LoanManagement.returnBookDouble (lm : LoanManagement) (bookId : Int) (user : User)
    (book : Book) (now : Int) : LoanResult :=
  match lm.activeLoans.find bookId with
  | none => ⟨false, lm, user, book, [.error "No active loan for this book."]⟩
  | some record =>
    if record.userId ≠ user.getUserId then
      ⟨false, lm, user, book, [.error "This user did not borrow this book."]⟩
    else
      let loans1 := lm.activeLoans.set bookId { record with returnDate := now }
      let fine := LoanManagement.calculateFineDouble book record.borrowDate now
      let user1 := if fine > 0 then user.addFineDouble fine else user
      let out1 := if fine > 0 then [Output.lateReturnFine fine] else []
      ⟨true, ⟨loans1.erase bookId⟩, user1.returnBook, book.setAvailable true,
        out1 ++ [.log "Book returned successfully."]⟩

/-- A `Magazine` (fine rate 0.7), on loan. -/
def weekly : Book :=
  (Book.new (BookClass.Magazine 3) 6 "weekly" "a" "c" "d" 40).setAvailable false

/-- The `double` that the literal `0.7` denotes. -/
def sevenTenths : ℚ := 3152519739159347 / 4503599627370496

/-- A standard patron who holds one item and owes `0.7`, the balance a `Magazine` returned
15 days after it was borrowed leaves. -/
def annOwing : User := { ann.borrowBook with fines := sevenTenths }

/-! ## Facts about association lists -/

namespace Map

variable {V : Type}

theorem find_set_self (m : Map V) (k : Int) (v : V) : find (set m k v) k = some v := by
  induction m with
  | nil => simp [set, find]
  | cons e m ih =>
    obtain ⟨k', v'⟩ := e
    by_cases h : k' = k
    · simp [set, find, h]
    · simp [set, find, h, ih]

theorem find_set_ne (m : Map V) {k k' : Int} (v : V) (h : k ≠ k') :
    find (set m k v) k' = find m k' := by
  induction m with
  | nil => simp [set, find, h]
  | cons e m ih =>
    obtain ⟨k0, v0⟩ := e
    by_cases h0 : k0 = k
    · subst h0
      simp [set, find, h]
    · simp only [set, h0, if_false, find, ih]

theorem find_erase_self (m : Map V) (k : Int) : find (erase m k) k = none := by
  induction m with
  | nil => simp [erase, find]
  | cons e m ih =>
    obtain ⟨k', v'⟩ := e
    by_cases h : k' = k
    · simp [erase, h, ih]
    · simp [erase, find, h, ih]

theorem find_erase_ne (m : Map V) {k k' : Int} (h : k ≠ k') :
    find (erase m k) k' = find m k' := by
  induction m with
  | nil => simp [erase, find]
  | cons e m ih =>
    obtain ⟨k0, v0⟩ := e
    by_cases h0 : k0 = k
    · subst h0
      simp [erase, find, h, ih]
    · simp only [erase, h0, if_false, find, ih]

theorem set_eq_self (m : Map V) {k : Int} {v : V} (h : find m k = some v) : set m k v = m := by
  induction m with
  | nil => simp [find] at h
  | cons e m ih =>
    obtain ⟨k', v'⟩ := e
    by_cases h0 : k' = k
    · subst h0
      simp [find] at h
      simp [set, h]
    · simp only [find, h0, if_false] at h
      simp [set, h0, ih h]

theorem erase_set (m : Map V) (k : Int) (v : V) : erase (set m k v) k = erase m k := by
  induction m with
  | nil => simp [set, erase]
  | cons e m ih =>
    obtain ⟨k', v'⟩ := e
    by_cases h0 : k' = k
    · simp [set, erase, h0]
    · simp [set, erase, h0, ih]

theorem find_isSome_iff_mem_keys (m : Map V) (k : Int) : (find m k).isSome ↔ k ∈ keys m := by
  induction m with
  | nil => simp [find, keys]
  | cons e m ih =>
    obtain ⟨k', v'⟩ := e
    by_cases h0 : k' = k
    · simp [find, keys, h0]
    · have h1 : ¬ k = k' := fun h => h0 h.symm
      simp only [find, h0, if_false, ih]
      simp [keys, h1]

theorem find_eq_none_iff (m : Map V) (k : Int) : find m k = none ↔ k ∉ keys m := by
  rw [← find_isSome_iff_mem_keys]
  cases find m k <;> simp

theorem erase_eq_self (m : Map V) {k : Int} (h : find m k = none) : erase m k = m := by
  induction m with
  | nil => simp [erase]
  | cons e m ih =>
    obtain ⟨k', v'⟩ := e
    by_cases h0 : k' = k
    · simp [find, h0] at h
    · simp only [find, h0, if_false] at h
      simp [erase, h0, ih h]

theorem keys_set_of_none (m : Map V) {k : Int} (v : V) (h : find m k = none) :
    keys (set m k v) = keys m ++ [k] := by
  induction m with
  | nil => simp [set, keys]
  | cons e m ih =>
    obtain ⟨k', v'⟩ := e
    by_cases h0 : k' = k
    · simp [find, h0] at h
    · simp only [find, h0, if_false] at h
      have := ih h
      simp only [keys] at this
      simp [set, h0, keys, this]

theorem keys_set_of_some (m : Map V) {k : Int} (v : V) (h : (find m k).isSome) :
    keys (set m k v) = keys m := by
  induction m with
  | nil => simp [find] at h
  | cons e m ih =>
    obtain ⟨k', v'⟩ := e
    by_cases h0 : k' = k
    · simp [set, keys, h0]
    · simp only [find, h0, if_false] at h
      have := ih h
      simp only [keys] at this
      simp [set, h0, keys, this]

theorem mem_keys_erase (m : Map V) (k k' : Int) : k' ∈ keys (erase m k) ↔ k' ≠ k ∧ k' ∈ keys m := by
  rw [← find_isSome_iff_mem_keys, ← find_isSome_iff_mem_keys]
  by_cases h : k = k'
  · subst h
    simp [find_erase_self]
  · rw [find_erase_ne m h]
    constructor
    · intro hs
      exact ⟨fun h' => h h'.symm, hs⟩
    · exact fun hs => hs.2

theorem nodup_keys_erase (m : Map V) (k : Int) (h : (keys m).Nodup) : (keys (erase m k)).Nodup := by
  induction m with
  | nil => simp [erase, keys]
  | cons e m ih =>
    obtain ⟨k', v'⟩ := e
    have hm : (keys m).Nodup := by
      simp only [keys, List.map_cons, List.nodup_cons] at h
      exact h.2
    by_cases h0 : k' = k
    · simp only [erase, h0, if_true]
      exact ih hm
    · simp only [erase, h0, if_false]
      have hk : k' ∉ keys m := by
        simp only [keys, List.map_cons, List.nodup_cons] at h
        exact h.1
      have : k' ∉ keys (erase m k) := fun hc => hk ((mem_keys_erase m k k').1 hc).2
      simp only [keys, List.map_cons, List.nodup_cons]
      exact ⟨this, ih hm⟩

theorem nodup_keys_set (m : Map V) (k : Int) (v : V) (h : (keys m).Nodup) :
    (keys (set m k v)).Nodup := by
  cases hf : find m k with
  | none =>
    rw [keys_set_of_none m v hf]
    have hk := (find_eq_none_iff m k).1 hf
    rw [List.nodup_append]
    refine ⟨h, by simp, ?_⟩
    intro a ha hb
    simp at hb
    subst hb
    exact hk ha
  | some w =>
    rw [keys_set_of_some m v (by simp [hf])]
    exact h

end Map

/-! ## Facts about the ledger operations -/

theorem loanBook_ok_iff (lm : LoanManagement) (bookId : Int) (user : User) (book : Book)
    (now : Int) :
    (lm.loanBook bookId user book now).ok = true ↔
      (book.canBeBorrowed = true ∧ book.available = true ∧ user.canBorrow = true) := by
  unfold LoanManagement.loanBook
  cases book.canBeBorrowed <;> cases book.available <;> cases user.canBorrow <;> simp

theorem loanBook_of_ok (lm : LoanManagement) (bookId : Int) (user : User) (book : Book)
    (now : Int) (h : (lm.loanBook bookId user book now).ok = true) :
    lm.loanBook bookId user book now =
      ⟨true, ⟨lm.activeLoans.set bookId ⟨bookId, user.getUserId, now, 0⟩⟩, user.borrowBook,
        book.setAvailable false, [.log "Book borrowed successfully."]⟩ := by
  obtain ⟨h1, h2, h3⟩ := (loanBook_ok_iff lm bookId user book now).1 h
  simp [LoanManagement.loanBook, h1, h2, h3]

theorem loanBook_of_not_ok (lm : LoanManagement) (bookId : Int) (user : User) (book : Book)
    (now : Int) (h : (lm.loanBook bookId user book now).ok = false) :
    (lm.loanBook bookId user book now).lm = lm ∧
      (lm.loanBook bookId user book now).user = user ∧
      (lm.loanBook bookId user book now).book = book ∧
      ∃ msg, (lm.loanBook bookId user book now).out = [.error msg] := by
  unfold LoanManagement.loanBook at h ⊢
  cases h1 : book.canBeBorrowed <;> cases h2 : book.available <;> cases h3 : user.canBorrow <;>
    simp [h1, h2, h3] at h ⊢

theorem returnBook_ok_iff (lm : LoanManagement) (bookId : Int) (user : User) (book : Book)
    (now : Int) :
    (lm.returnBook bookId user book now).ok = true ↔
      ∃ record, lm.activeLoans.find bookId = some record ∧ record.userId = user.getUserId := by
  unfold LoanManagement.returnBook
  cases hf : lm.activeLoans.find bookId with
  | none => simp
  | some record =>
    by_cases hu : record.userId = user.getUserId <;> simp [hu]

theorem returnBook_of_ok (lm : LoanManagement) (bookId : Int) (user : User) (book : Book)
    (now : Int) (record : LoanRecord) (hf : lm.activeLoans.find bookId = some record)
    (hu : record.userId = user.getUserId) :
    lm.returnBook bookId user book now =
      ⟨true, ⟨lm.activeLoans.erase bookId⟩,
        (if LoanManagement.calculateFine book record.borrowDate now > 0
          then user.addFine (LoanManagement.calculateFine book record.borrowDate now)
          else user).returnBook,
        book.setAvailable true,
        (if LoanManagement.calculateFine book record.borrowDate now > 0
          then [Output.lateReturnFine (LoanManagement.calculateFine book record.borrowDate now)]
          else []) ++ [.log "Book returned successfully."]⟩ := by
  simp [LoanManagement.returnBook, hf, hu, Map.erase_set]

theorem returnBook_of_not_ok (lm : LoanManagement) (bookId : Int) (user : User) (book : Book)
    (now : Int) (h : (lm.returnBook bookId user book now).ok = false) :
    (lm.returnBook bookId user book now).lm = lm ∧
      (lm.returnBook bookId user book now).user = user ∧
      (lm.returnBook bookId user book now).book = book ∧
      ∃ msg, (lm.returnBook bookId user book now).out = [.error msg] := by
  unfold LoanManagement.returnBook at h ⊢
  cases hf : lm.activeLoans.find bookId with
  | none => simp
  | some record =>
    by_cases hu : record.userId = user.getUserId
    · simp [hf, hu] at h
    · simp [hu]

/-! ## Facts about counting ledger records -/

theorem loanCount_cons (e : Int × LoanRecord) (m : Map LoanRecord) (uid : Int) :
    loanCount (e :: m) uid = (if e.2.userId = uid then 1 else 0) + loanCount m uid := by
  unfold loanCount
  by_cases h : e.2.userId = uid
  · simp [List.filter_cons, h, Nat.add_comm]
  · simp [List.filter_cons, h]

theorem loanCount_set_of_none (m : Map LoanRecord) (k : Int) (r : LoanRecord) (uid : Int)
    (h : Map.find m k = none) :
    loanCount (Map.set m k r) uid = loanCount m uid + (if r.userId = uid then 1 else 0) := by
  induction m with
  | nil =>
    have h0 : loanCount ([] : Map LoanRecord) uid = 0 := rfl
    simp only [Map.set, loanCount_cons, h0]
    omega
  | cons e m ih =>
    obtain ⟨k', v'⟩ := e
    by_cases h0 : k' = k
    · simp [Map.find, h0] at h
    · simp only [Map.find, h0, if_false] at h
      simp only [Map.set, h0, if_false, loanCount_cons, ih h]
      omega

theorem loanCount_erase (m : Map LoanRecord) (k : Int) (r : LoanRecord) (uid : Int)
    (hn : (Map.keys m).Nodup) (hf : Map.find m k = some r) :
    loanCount (Map.erase m k) uid + (if r.userId = uid then 1 else 0) = loanCount m uid := by
  induction m with
  | nil => simp [Map.find] at hf
  | cons e m ih =>
    obtain ⟨k', v'⟩ := e
    simp only [Map.keys, List.map_cons, List.nodup_cons] at hn
    by_cases h0 : k' = k
    · subst h0
      simp only [Map.find, if_true, Option.some.injEq] at hf
      subst hf
      have hnone : Map.find m k' = none := (Map.find_eq_none_iff m k').2 hn.1
      simp only [Map.erase, if_true, Map.erase_eq_self m hnone, loanCount_cons]
      omega
    · simp only [Map.find, h0, if_false] at hf
      have := ih hn.2 hf
      simp only [Map.erase, h0, if_false, loanCount_cons]
      omega

theorem loanCount_eq_zero (m : Map LoanRecord) (uid : Int)
    (h : ∀ e ∈ m, e.2.userId ≠ uid) : loanCount m uid = 0 := by
  unfold loanCount
  rw [List.length_eq_zero, List.filter_eq_nil_iff]
  intro e he
  simpa using h e he

theorem Map.mem_set {V : Type} (m : Map V) (k : Int) (v : V) (e : Int × V)
    (h : e ∈ Map.set m k v) : e = (k, v) ∨ e ∈ m := by
  induction m with
  | nil =>
    simp [Map.set] at h
    exact Or.inl h
  | cons e0 m ih =>
    obtain ⟨k', v'⟩ := e0
    by_cases h0 : k' = k
    · simp only [Map.set, h0, if_true, List.mem_cons] at h
      rcases h with h | h
      · exact Or.inl h
      · exact Or.inr (List.mem_cons_of_mem _ h)
    · simp only [Map.set, h0, if_false, List.mem_cons] at h
      rcases h with h | h
      · exact Or.inr (by simp [h])
      · rcases ih h with h | h
        · exact Or.inl h
        · exact Or.inr (List.mem_cons_of_mem _ h)

theorem Map.mem_erase {V : Type} (m : Map V) (k : Int) (e : Int × V)
    (h : e ∈ Map.erase m k) : e ∈ m := by
  induction m with
  | nil => simp [Map.erase] at h
  | cons e0 m ih =>
    obtain ⟨k', v'⟩ := e0
    by_cases h0 : k' = k
    · simp only [Map.erase, h0, if_true] at h
      exact List.mem_cons_of_mem _ (ih h)
    · simp only [Map.erase, h0, if_false, List.mem_cons] at h
      rcases h with h | h
      · simp [h]
      · exact List.mem_cons_of_mem _ (ih h)

theorem Map.find_isSome_of_mem {V : Type} (m : Map V) (e : Int × V) (h : e ∈ m) :
    (Map.find m e.1).isSome := by
  rw [Map.find_isSome_iff_mem_keys]
  exact List.mem_map_of_mem Prod.fst h

theorem Map.mem_of_find {V : Type} (m : Map V) (k : Int) (v : V) (h : Map.find m k = some v) :
    (k, v) ∈ m := by
  induction m with
  | nil => simp [Map.find] at h
  | cons e0 m ih =>
    obtain ⟨k', v'⟩ := e0
    by_cases h0 : k' = k
    · simp only [Map.find, h0, if_true, Option.some.injEq] at h
      simp [h0, h]
    · simp only [Map.find, h0, if_false] at h
      exact List.mem_cons_of_mem _ (ih h)

theorem Map.find_set_isSome {V : Type} (m : Map V) (k k' : Int) (v : V)
    (h : (Map.find m k').isSome) : (Map.find (Map.set m k v) k').isSome := by
  by_cases hk : k = k'
  · subst hk
    simp [Map.find_set_self]
  · rw [Map.find_set_ne m v hk]
    exact h

/-! ## The desk: shape of each request's result -/

namespace LibraryManagementSystem

theorem writeback_eq_self (st : LibraryManagementSystem) {userId bookId : Int} {user : User}
    {book : Book} (hu : st.users.find userId = some user) (hb : st.books.find bookId = some book) :
    ({ users := st.users.set userId user, books := st.books.set bookId book,
       loanManagement := st.loanManagement, reservationSystem := st.reservationSystem } :
      LibraryManagementSystem) = st := by
  rw [Map.set_eq_self _ hu, Map.set_eq_self _ hb]

theorem desk_borrowBook_of_ok (st : LibraryManagementSystem) {userId bookId : Int} (now : Int)
    {user : User} {book : Book}
    (hu : st.users.find userId = some user) (hb : st.books.find bookId = some book)
    (hok : (st.loanManagement.loanBook bookId user book now).ok = true) :
    (st.borrowBook userId bookId now).1 =
      { users := st.users.set userId user.borrowBook,
        books := st.books.set bookId (book.setAvailable false),
        loanManagement :=
          ⟨st.loanManagement.activeLoans.set bookId ⟨bookId, user.getUserId, now, 0⟩⟩,
        reservationSystem := st.reservationSystem } := by
  simp only [borrowBook, hu, hb]
  rw [loanBook_of_ok _ _ _ _ _ hok]

theorem desk_borrowBook_of_not_ok (st : LibraryManagementSystem) {userId bookId : Int} (now : Int)
    {user : User} {book : Book}
    (hu : st.users.find userId = some user) (hb : st.books.find bookId = some book)
    (hok : (st.loanManagement.loanBook bookId user book now).ok = false) :
    (st.borrowBook userId bookId now).1 = st := by
  obtain ⟨h1, h2, h3, -⟩ := loanBook_of_not_ok _ _ _ _ _ hok
  simp only [borrowBook, hu, hb, h1, h2, h3]
  exact writeback_eq_self st hu hb

theorem desk_returnBook_of_ok (st : LibraryManagementSystem) {userId bookId : Int} (now : Int)
    {user : User} {book : Book} {record : LoanRecord}
    (hu : st.users.find userId = some user) (hb : st.books.find bookId = some book)
    (hf : st.loanManagement.activeLoans.find bookId = some record)
    (hr : record.userId = user.getUserId) :
    (st.returnBook userId bookId now).1 =
      { users := st.users.set userId
          (if LoanManagement.calculateFine book record.borrowDate now > 0
            then user.addFine (LoanManagement.calculateFine book record.borrowDate now)
            else user).returnBook,
        books := st.books.set bookId (book.setAvailable true),
        loanManagement := ⟨st.loanManagement.activeLoans.erase bookId⟩,
        reservationSystem := (st.reservationSystem.notifyNextUser bookId).1 } := by
  simp only [returnBook, hu, hb]
  rw [Library.returnBook_of_ok _ _ _ _ _ record hf hr]
  simp

theorem desk_returnBook_of_not_ok (st : LibraryManagementSystem) {userId bookId : Int} (now : Int)
    {user : User} {book : Book}
    (hu : st.users.find userId = some user) (hb : st.books.find bookId = some book)
    (hok : (st.loanManagement.returnBook bookId user book now).ok = false) :
    (st.returnBook userId bookId now).1 = st := by
  obtain ⟨h1, h2, h3, -⟩ := Library.returnBook_of_not_ok _ _ _ _ _ hok
  simp only [returnBook, hu, hb, h1, h2, h3, hok]
  exact writeback_eq_self st hu hb

end LibraryManagementSystem

/-! ## The consistency conditions hold in every reachable state -/

theorem DeskInv.of_empty : DeskInv LibraryManagementSystem.empty := by
  constructor <;> simp [LibraryManagementSystem.empty, Map.find, Map.keys]

theorem DeskInv.of_addUser {st : LibraryManagementSystem} (h : DeskInv st) (id : Int)
    (uname pwd : String) (t : UserType) : DeskInv (st.addUser (User.new id uname pwd t)).1 := by
  unfold LibraryManagementSystem.addUser
  have hid : (User.new id uname pwd t).getUserId = id := rfl
  rw [hid]
  cases hf : st.users.find id with
  | some u => exact h
  | none =>
    refine ⟨?_, h.bookKey, h.avail, h.loanBook, ?_, h.nodup, ?_, h.refAvail⟩
    · intro id' u hu
      by_cases hk : id = id'
      · subst hk
        simp only [Map.find_set_self, Option.some.injEq] at hu
        rw [← hu]
        rfl
      · simp only [Map.find_set_ne _ _ hk] at hu
        exact h.userKey _ _ hu
    · intro e he
      exact Map.find_set_isSome _ _ _ _ (h.loanUser e he)
    · intro id' u hu
      by_cases hk : id = id'
      · subst hk
        simp only [Map.find_set_self, Option.some.injEq] at hu
        have hz : loanCount st.loanManagement.activeLoans id = 0 := by
          apply loanCount_eq_zero
          intro e he heq
          have := h.loanUser e he
          rw [heq, hf] at this
          simp at this
        show u.borrowedCount = (loanCount st.loanManagement.activeLoans id : Int)
        rw [hz, ← hu]
        rfl
      · simp only [Map.find_set_ne _ _ hk] at hu
        exact h.count _ _ hu

theorem DeskInv.of_addBook {st : LibraryManagementSystem} (h : DeskInv st) (cls : BookClass)
    (i : Int) (t a c pd : String) (p : Int) :
    DeskInv (st.addBook (Book.new cls i t a c pd p)).1 := by
  unfold LibraryManagementSystem.addBook
  have hid : (Book.new cls i t a c pd p).getId = i := rfl
  rw [hid]
  cases hf : st.books.find i with
  | some u => exact h
  | none =>
    refine ⟨h.userKey, ?_, ?_, ?_, h.loanUser, h.nodup, h.count, ?_⟩
    · intro id' b hb
      by_cases hk : i = id'
      · subst hk
        simp only [Map.find_set_self, Option.some.injEq] at hb
        rw [← hb]
        rfl
      · simp only [Map.find_set_ne _ _ hk] at hb
        exact h.bookKey _ _ hb
    · intro id' b hb
      by_cases hk : i = id'
      · subst hk
        simp only [Map.find_set_self, Option.some.injEq] at hb
        have hn : st.loanManagement.activeLoans.find i = none := by
          cases hl : st.loanManagement.activeLoans.find i with
          | none => rfl
          | some r =>
            have := h.loanBook _ (Map.mem_of_find _ _ _ hl)
            rw [hf] at this
            simp at this
        show b.isAvailable = false ↔ (st.loanManagement.activeLoans.find i).isSome
        rw [hn, ← hb]
        simp [Book.new]
      · simp only [Map.find_set_ne _ _ hk] at hb
        exact h.avail _ _ hb
    · intro e he
      exact Map.find_set_isSome _ _ _ _ (h.loanBook e he)
    · intro id' b hb hc
      by_cases hk : i = id'
      · subst hk
        simp only [Map.find_set_self, Option.some.injEq] at hb
        rw [← hb]
        rfl
      · simp only [Map.find_set_ne _ _ hk] at hb
        exact h.refAvail _ _ hb hc

theorem DeskInv.of_borrowBook {st : LibraryManagementSystem} (h : DeskInv st)
    (userId bookId now : Int) : DeskInv (st.borrowBook userId bookId now).1 := by
  cases hu : st.users.find userId with
  | none => simpa [LibraryManagementSystem.borrowBook, hu] using h
  | some user =>
  cases hb : st.books.find bookId with
  | none => simpa [LibraryManagementSystem.borrowBook, hu, hb] using h
  | some book =>
  cases hok : (st.loanManagement.loanBook bookId user book now).ok with
  | false =>
    rw [LibraryManagementSystem.desk_borrowBook_of_not_ok st now hu hb hok]
    exact h
  | true =>
    rw [LibraryManagementSystem.desk_borrowBook_of_ok st now hu hb hok]
    obtain ⟨h1, h2, h3⟩ := (loanBook_ok_iff _ _ _ _ _).1 hok
    have huid : user.userId = userId := h.userKey _ _ hu
    have hbid : book.id = bookId := h.bookKey _ _ hb
    have hnone : st.loanManagement.activeLoans.find bookId = none := by
      have := h.avail _ _ hb
      have h2' : book.isAvailable = true := h2
      cases hl : st.loanManagement.activeLoans.find bookId with
      | none => rfl
      | some r =>
        rw [hl] at this
        simp [h2'] at this
    refine ⟨?_, ?_, ?_, ?_, ?_, ?_, ?_, ?_⟩
    · intro id u hfu
      by_cases hk : userId = id
      · subst hk
        simp only [Map.find_set_self, Option.some.injEq] at hfu
        rw [← hfu]
        exact huid
      · simp only [Map.find_set_ne _ _ hk] at hfu
        exact h.userKey _ _ hfu
    · intro id b hfb
      by_cases hk : bookId = id
      · subst hk
        simp only [Map.find_set_self, Option.some.injEq] at hfb
        rw [← hfb]
        exact hbid
      · simp only [Map.find_set_ne _ _ hk] at hfb
        exact h.bookKey _ _ hfb
    · intro id b hfb
      by_cases hk : bookId = id
      · subst hk
        simp only [Map.find_set_self, Option.some.injEq] at hfb
        rw [← hfb]
        simp [Book.setAvailable, Map.find_set_self]
      · simp only [Map.find_set_ne _ _ hk] at hfb ⊢
        exact h.avail _ _ hfb
    · intro e he
      rcases Map.mem_set _ _ _ _ he with he | he
      · subst he
        simp [Map.find_set_self]
      · exact Map.find_set_isSome _ _ _ _ (h.loanBook e he)
    · intro e he
      rcases Map.mem_set _ _ _ _ he with he | he
      · subst he
        show (Map.find (Map.set st.users userId user.borrowBook) user.userId).isSome
        rw [huid]
        simp [Map.find_set_self]
      · exact Map.find_set_isSome _ _ _ _ (h.loanUser e he)
    · exact Map.nodup_keys_set _ _ _ h.nodup
    · intro id u hfu
      simp only [loanCount_set_of_none _ _ _ _ hnone]
      by_cases hk : userId = id
      · subst hk
        simp only [Map.find_set_self, Option.some.injEq] at hfu
        rw [← hfu]
        have := h.count _ _ hu
        simp only [User.borrowBook, User.getUserId, huid, if_true, this]
        push_cast
        rfl
      · simp only [Map.find_set_ne _ _ hk] at hfu
        have := h.count _ _ hfu
        simp only [User.getUserId, huid, hk, if_false, this]
        simp
    · intro id b hfb hc
      by_cases hk : bookId = id
      · subst hk
        simp only [Map.find_set_self, Option.some.injEq] at hfb
        rw [← hfb] at hc
        have : book.canBeBorrowed = false := hc
        rw [h1] at this
        exact absurd this (by simp)
      · simp only [Map.find_set_ne _ _ hk] at hfb
        exact h.refAvail _ _ hfb hc

theorem User.returnBook_borrowedCount_of_pos (u : User) (h : 0 < u.borrowedCount) :
    u.returnBook.borrowedCount = u.borrowedCount - 1 := by
  simp [User.returnBook, h]

theorem User.returnBook_userId (u : User) : u.returnBook.userId = u.userId := by
  unfold User.returnBook
  split <;> rfl

theorem DeskInv.of_returnBook {st : LibraryManagementSystem} (h : DeskInv st)
    (userId bookId now : Int) : DeskInv (st.returnBook userId bookId now).1 := by
  cases hu : st.users.find userId with
  | none => simpa [LibraryManagementSystem.returnBook, hu] using h
  | some user =>
  cases hb : st.books.find bookId with
  | none => simpa [LibraryManagementSystem.returnBook, hu, hb] using h
  | some book =>
  cases hok : (st.loanManagement.returnBook bookId user book now).ok with
  | false =>
    rw [LibraryManagementSystem.desk_returnBook_of_not_ok st now hu hb hok]
    exact h
  | true =>
    obtain ⟨record, hf, hr⟩ := (returnBook_ok_iff _ _ _ _ _).1 hok
    rw [LibraryManagementSystem.desk_returnBook_of_ok st now hu hb hf hr]
    have huid : user.userId = userId := h.userKey _ _ hu
    have hbid : book.id = bookId := h.bookKey _ _ hb
    have hruid : record.userId = userId := by rw [hr]; exact huid
    generalize hfine : LoanManagement.calculateFine book record.borrowDate now = fine
    have hu1id : (if fine > 0 then user.addFine fine else user).userId = user.userId := by
      split <;> rfl
    have hu1cnt : (if fine > 0 then user.addFine fine else user).borrowedCount
        = user.borrowedCount := by
      split <;> rfl
    have hcnt := loanCount_erase _ _ _ userId h.nodup hf
    simp only [hruid, if_true] at hcnt
    have hucnt := h.count _ _ hu
    refine ⟨?_, ?_, ?_, ?_, ?_, ?_, ?_, ?_⟩
    · intro id u hfu
      by_cases hk : userId = id
      · subst hk
        simp only [Map.find_set_self, Option.some.injEq] at hfu
        rw [← hfu, User.returnBook_userId, hu1id]
        exact huid
      · simp only [Map.find_set_ne _ _ hk] at hfu
        exact h.userKey _ _ hfu
    · intro id b hfb
      by_cases hk : bookId = id
      · subst hk
        simp only [Map.find_set_self, Option.some.injEq] at hfb
        rw [← hfb]
        exact hbid
      · simp only [Map.find_set_ne _ _ hk] at hfb
        exact h.bookKey _ _ hfb
    · intro id b hfb
      by_cases hk : bookId = id
      · subst hk
        simp only [Map.find_set_self, Option.some.injEq] at hfb
        rw [← hfb]
        simp [Book.setAvailable, Map.find_erase_self]
      · simp only [Map.find_set_ne _ _ hk, Map.find_erase_ne _ hk] at hfb ⊢
        exact h.avail _ _ hfb
    · intro e he
      exact Map.find_set_isSome _ _ _ _ (h.loanBook e (Map.mem_erase _ _ _ he))
    · intro e he
      exact Map.find_set_isSome _ _ _ _ (h.loanUser e (Map.mem_erase _ _ _ he))
    · exact Map.nodup_keys_erase _ _ h.nodup
    · intro id u hfu
      by_cases hk : userId = id
      · subst hk
        simp only [Map.find_set_self, Option.some.injEq] at hfu
        have hpos : 0 < (if fine > 0 then user.addFine fine else user).borrowedCount := by
          rw [hu1cnt, hucnt]
          omega
        rw [← hfu, User.returnBook_borrowedCount_of_pos _ hpos, hu1cnt, hucnt]
        show ((loanCount st.loanManagement.activeLoans userId : Int) - 1)
          = (loanCount (Map.erase st.loanManagement.activeLoans bookId) userId : Int)
        omega
      · simp only [Map.find_set_ne _ _ hk] at hfu
        have hc := loanCount_erase _ _ _ id h.nodup hf
        have hne : ¬ record.userId = id := by rw [hruid]; exact hk
        simp only [hne, if_false, Nat.add_zero] at hc
        show u.borrowedCount
          = (loanCount (Map.erase st.loanManagement.activeLoans bookId) id : Int)
        rw [hc]
        exact h.count _ _ hfu
    · intro id b hfb hc
      by_cases hk : bookId = id
      · subst hk
        simp only [Map.find_set_self, Option.some.injEq] at hfb
        rw [← hfb]
        rfl
      · simp only [Map.find_set_ne _ _ hk] at hfb
        exact h.refAvail _ _ hfb hc

theorem DeskInv.of_reserveBook {st : LibraryManagementSystem} (h : DeskInv st)
    (userId bookId : Int) : DeskInv (st.reserveBook userId bookId).1 := by
  unfold LibraryManagementSystem.reserveBook
  cases hu : st.users.find userId with
  | none => exact h
  | some user =>
  cases hb : st.books.find bookId with
  | none => exact h
  | some book =>
    exact ⟨h.userKey, h.bookKey, h.avail, h.loanBook, h.loanUser, h.nodup, h.count, h.refAvail⟩

theorem DeskInv.of_step {st : LibraryManagementSystem} (h : DeskInv st) (op : Op) :
    DeskInv (st.step op).1 := by
  cases op with
  | addUser id uname pwd t => exact h.of_addUser id uname pwd t
  | addBook cls i t a c pd p => exact h.of_addBook cls i t a c pd p
  | borrowBook userId bookId now => exact h.of_borrowBook userId bookId now
  | returnBook userId bookId now => exact h.of_returnBook userId bookId now
  | reserveBook userId bookId => exact h.of_reserveBook userId bookId

theorem DeskInv.of_run {st : LibraryManagementSystem} (h : DeskInv st) (ops : List Op) :
    DeskInv (st.run ops) := by
  induction ops generalizing st with
  | nil => exact h
  | cons op ops ih => exact ih (h.of_step op)

theorem DeskInv.of_reachable {st : LibraryManagementSystem} (h : Reachable st) : DeskInv st := by
  obtain ⟨ops, rfl⟩ := h
  exact DeskInv.of_empty.of_run ops

/-! ## Ledger and registry invariants -/

/-- C1. In every state reachable from the empty desk through `addUser`, `addBook`,
`borrowBook`, `returnBook` and `reserveBook`, a registered item is unavailable exactly when
the ledger `activeLoans` holds a record keyed by the item's ID. -/
theorem ledger_item_consistency (st : LibraryManagementSystem) (h : Reachable st)
    (id : Int) (b : Book) (hb : st.books.find id = some b) :
    b.available = false ↔ ∃ r, st.loanManagement.activeLoans.find b.getId = some r := by
  have inv := DeskInv.of_reachable h
  have hid : b.getId = id := inv.bookKey id b hb
  rw [hid]
  have := inv.avail id b hb
  rw [Option.isSome_iff_exists] at this
  exact this

theorem ledger_item_consistency_witness :
    Reachable sampleDesk ∧
      sampleDesk.books.find 7 = some (algebra.setAvailable false) ∧
      ((algebra.setAvailable false).available = false ↔
        ∃ r, sampleDesk.loanManagement.activeLoans.find (algebra.setAvailable false).getId
          = some r) :=
  ⟨⟨sampleOps, rfl⟩, by decide,
    ledger_item_consistency sampleDesk ⟨sampleOps, rfl⟩ 7 (algebra.setAvailable false)
      (by decide)⟩

/-- C2. In every state reachable from the empty desk through `addUser`, `addBook`,
`borrowBook`, `returnBook` and `reserveBook`, the `borrowedCount` of a registered patron is
the number of records of `activeLoans` whose `userId` is the patron's ID. -/
theorem loan_count_consistency (st : LibraryManagementSystem) (h : Reachable st)
    (id : Int) (u : User) (hu : st.users.find id = some u) :
    u.borrowedCount = (loanCount st.loanManagement.activeLoans u.getUserId : Int) := by
  have inv := DeskInv.of_reachable h
  have hid : u.getUserId = id := inv.userKey id u hu
  rw [hid]
  exact inv.count id u hu

theorem loan_count_consistency_witness :
    Reachable sampleDesk ∧
      sampleDesk.users.find 1 = some ann.borrowBook ∧
      ann.borrowBook.borrowedCount
        = (loanCount sampleDesk.loanManagement.activeLoans ann.borrowBook.getUserId : Int) :=
  ⟨⟨sampleOps, rfl⟩, by decide,
    loan_count_consistency sampleDesk ⟨sampleOps, rfl⟩ 1 ann.borrowBook (by decide)⟩

/-! ## Fines -/

theorem getFineRate_nonneg (book : Book) : 0 ≤ book.getFineRate := by
  unfold Book.getFineRate
  split <;> norm_num

theorem calculateFine_whole_days (book : Book) (t0 d : Int) :
    LoanManagement.calculateFine book t0 (t0 + d * 86400)
      = book.getFineRate * max 0 ((d : ℚ) - 14) := by
  have hd : (((t0 + d * 86400 - t0 : Int) : ℚ)) / (60 * 60 * 24) - 14 = (d : ℚ) - 14 := by
    push_cast
    ring
  simp only [LoanManagement.calculateFine, hd]
  by_cases h : (d : ℚ) - 14 ≤ 0
  · simp [h]
  · have h' : 0 ≤ (d : ℚ) - 14 := le_of_lt (not_le.1 h)
    simp only [h, if_false, max_eq_right h']
    ring

theorem calculateFine_nonneg (book : Book) (t0 now : Int) :
    0 ≤ LoanManagement.calculateFine book t0 now := by
  unfold LoanManagement.calculateFine
  simp only
  split
  · exact le_refl 0
  · rename_i h
    exact mul_nonneg (le_of_lt (not_le.1 h)) (getFineRate_nonneg book)

theorem calculateFine_novel_20_days :
    LoanManagement.calculateFine (novel.setAvailable false) 0 (20 * 86400) = 6 := by
  have h := calculateFine_whole_days (novel.setAvailable false) 0 20
  have e : (0 : Int) + 20 * 86400 = 20 * 86400 := by norm_num
  rw [e] at h
  rw [h]
  have hr : (novel.setAvailable false).getFineRate = 1 := rfl
  rw [hr]
  norm_num

/-- The balance after a successful `returnBook`: the fine is added when positive, and a
zero fine leaves the balance as it was. -/
theorem returnBook_fines (lm : LoanManagement) (bookId : Int) (user : User) (book : Book)
    (now : Int) (record : LoanRecord) (hf : lm.activeLoans.find bookId = some record)
    (hu : record.userId = user.getUserId) :
    (lm.returnBook bookId user book now).user.fines
      = user.fines + LoanManagement.calculateFine book record.borrowDate now := by
  rw [returnBook_of_ok lm bookId user book now record hf hu]
  have h0 := calculateFine_nonneg book record.borrowDate now
  show ((if LoanManagement.calculateFine book record.borrowDate now > 0
          then user.addFine (LoanManagement.calculateFine book record.borrowDate now)
          else user).returnBook).fines = _
  have hret : ∀ u : User, u.returnBook.fines = u.fines := by
    intro u
    unfold User.returnBook
    split <;> rfl
  rw [hret]
  by_cases hpos : LoanManagement.calculateFine book record.borrowDate now > 0
  · simp only [hpos, if_true, User.addFine]
  · have hz : LoanManagement.calculateFine book record.borrowDate now = 0 :=
      le_antisymm (not_lt.1 hpos) h0
    simp [hz]

theorem run_append (st : LibraryManagementSystem) (ops : List Op) (op : Op) :
    st.run (ops ++ [op]) = ((st.run ops).step op).1 := by
  induction ops generalizing st with
  | nil => rfl
  | cons o ops ih => exact ih (st.step o).1

/-- C3 (the code departs from the claim). An extended-privilege patron, whose
`getBorrowDays()` is 365, returns a rate-1.0 item 20 days after borrowing it:
`calculateFine` subtracts the constant 14 and charges 6, where the patron's own loan period
would give `max(0, 20 - 365) * 1.0 = 0`.  The same happens through the desk with objects
the console can create: a librarian who returns a `TextBook` (rate 0.5) after 20 days ends
with a balance of 3. -/
theorem extended_patron_fined_after_20_days :
    lib.borrowBook.getBorrowDays = 365 ∧
      (novel.setAvailable false).getFineRate = 1 ∧
      (LoanManagement.returnBook ⟨[(8, ⟨8, 2, 0, 0⟩)]⟩ 8 lib.borrowBook
        (novel.setAvailable false) (20 * 86400)).ok = true ∧
      (LoanManagement.returnBook ⟨[(8, ⟨8, 2, 0, 0⟩)]⟩ 8 lib.borrowBook
        (novel.setAvailable false) (20 * 86400)).user.fines = 6 ∧
      max 0 (((20 : Int) : ℚ) - (lib.borrowBook.getBorrowDays : ℚ))
        * (novel.setAvailable false).getFineRate = 0 ∧
      ((LibraryManagementSystem.empty.run
          (libBorrowsOps ++ [.returnBook 2 7 (20 * 86400)])).users.find 2).map User.getFines
        = some 3 := by
  have hf : (⟨[(8, ⟨8, 2, 0, 0⟩)]⟩ : LoanManagement).activeLoans.find 8
      = some ⟨8, 2, 0, 0⟩ := by decide
  have hu : (⟨8, 2, 0, 0⟩ : LoanRecord).userId = lib.borrowBook.getUserId := by decide
  refine ⟨by decide, rfl, ?_, ?_, ?_, ?_⟩
  · exact (returnBook_ok_iff _ _ _ _ _).2 ⟨_, hf, hu⟩
  · rw [returnBook_fines _ _ _ _ _ _ hf hu]
    have h0 : lib.borrowBook.fines = 0 := rfl
    rw [h0]
    show (0 : ℚ) + LoanManagement.calculateFine (novel.setAvailable false) 0 (20 * 86400) = 6
    rw [calculateFine_novel_20_days]
    norm_num
  · have hd : lib.borrowBook.getBorrowDays = 365 := by decide
    rw [hd]
    norm_num
  · have hu2 : (LibraryManagementSystem.empty.run libBorrowsOps).users.find 2
        = some lib.borrowBook := by decide
    have hb2 : (LibraryManagementSystem.empty.run libBorrowsOps).books.find 7
        = some (algebra.setAvailable false) := by decide
    have hf2 : (LibraryManagementSystem.empty.run libBorrowsOps).loanManagement.activeLoans.find 7
        = some ⟨7, 2, 0, 0⟩ := by decide
    have hr2 : (⟨7, 2, 0, 0⟩ : LoanRecord).userId = lib.borrowBook.getUserId := by decide
    have hfine : LoanManagement.calculateFine (algebra.setAvailable false) 0 (20 * 86400)
        = 3 := by
      have h := calculateFine_whole_days (algebra.setAvailable false) 0 20
      have e : (0 : Int) + 20 * 86400 = 20 * 86400 := by norm_num
      rw [e] at h
      rw [h]
      have hr : (algebra.setAvailable false).getFineRate = 1 / 2 := rfl
      rw [hr]
      norm_num
    rw [run_append]
    show (((LibraryManagementSystem.empty.run libBorrowsOps).returnBook 2 7
      (20 * 86400)).1.users.find 2).map User.getFines = some 3
    rw [LibraryManagementSystem.desk_returnBook_of_ok _ _ hu2 hb2 hf2 hr2]
    show ((Map.find (Map.set _ 2 _) 2).map User.getFines) = some 3
    rw [Map.find_set_self]
    show some (User.getFines (User.returnBook
      (if LoanManagement.calculateFine (algebra.setAvailable false) 0 (20 * 86400) > 0
        then lib.borrowBook.addFine
          (LoanManagement.calculateFine (algebra.setAvailable false) 0 (20 * 86400))
        else lib.borrowBook))) = some 3
    rw [hfine]
    have hpos : (3 : ℚ) > 0 := by norm_num
    rw [if_pos hpos]
    have hret : ∀ u : User, u.returnBook.getFines = u.fines := by
      intro u
      unfold User.returnBook User.getFines
      split <;> rfl
    rw [hret]
    show some ((0 : ℚ) + 3) = some 3
    norm_num

/-- C5 (the code departs from the claim). An extended-privilege patron borrows a rate-1.0
item at time 0 and returns it 20 days later, well inside the 365 days of
`getBorrowDays()`: both calls succeed, the item is available again, `borrowedCount` is
back to its old value and the ledger holds no record for the item, but the balance has
grown from 0 to 6 instead of staying unchanged. -/
theorem round_trip_extended_patron_fined :
    lib.canBorrow = true ∧ novel.canBeBorrowed = true ∧ novel.available = true ∧
      (20 * 86400 - 0 ≤ lib.getBorrowDays * 86400) ∧
      (LoanManagement.loanBook ⟨[]⟩ 8 lib novel 0).ok = true ∧
      (LoanManagement.returnBook (LoanManagement.loanBook ⟨[]⟩ 8 lib novel 0).lm 8
        (LoanManagement.loanBook ⟨[]⟩ 8 lib novel 0).user
        (LoanManagement.loanBook ⟨[]⟩ 8 lib novel 0).book (20 * 86400)).ok = true ∧
      (LoanManagement.returnBook (LoanManagement.loanBook ⟨[]⟩ 8 lib novel 0).lm 8
        (LoanManagement.loanBook ⟨[]⟩ 8 lib novel 0).user
        (LoanManagement.loanBook ⟨[]⟩ 8 lib novel 0).book (20 * 86400)).book.available = true ∧
      (LoanManagement.returnBook (LoanManagement.loanBook ⟨[]⟩ 8 lib novel 0).lm 8
        (LoanManagement.loanBook ⟨[]⟩ 8 lib novel 0).user
        (LoanManagement.loanBook ⟨[]⟩ 8 lib novel 0).book (20 * 86400)).lm.activeLoans.find 8
          = none ∧
      lib.fines = 0 ∧
      (LoanManagement.returnBook (LoanManagement.loanBook ⟨[]⟩ 8 lib novel 0).lm 8
        (LoanManagement.loanBook ⟨[]⟩ 8 lib novel 0).user
        (LoanManagement.loanBook ⟨[]⟩ 8 lib novel 0).book (20 * 86400)).user.fines = 6 := by
  have hloan : LoanManagement.loanBook ⟨[]⟩ 8 lib novel 0
      = ⟨true, ⟨[(8, ⟨8, 2, 0, 0⟩)]⟩, lib.borrowBook, novel.setAvailable false,
          [.log "Book borrowed successfully."]⟩ := by decide
  have hf : (⟨[(8, ⟨8, 2, 0, 0⟩)]⟩ : LoanManagement).activeLoans.find 8
      = some ⟨8, 2, 0, 0⟩ := by decide
  have hu : (⟨8, 2, 0, 0⟩ : LoanRecord).userId = lib.borrowBook.getUserId := by decide
  rw [hloan]
  refine ⟨by decide, by decide, by decide, by decide, rfl, ?_, ?_, ?_, rfl, ?_⟩
  · exact (returnBook_ok_iff _ _ _ _ _).2 ⟨_, hf, hu⟩
  · rw [returnBook_of_ok _ _ _ _ _ _ hf hu]
    rfl
  · rw [returnBook_of_ok _ _ _ _ _ _ hf hu]
    decide
  · rw [returnBook_fines _ _ _ _ _ _ hf hu]
    have h0 : lib.borrowBook.fines = 0 := rfl
    rw [h0]
    show (0 : ℚ) + LoanManagement.calculateFine (novel.setAvailable false) 0 (20 * 86400) = 6
    rw [calculateFine_novel_20_days]
    norm_num

/-! ## Issue and settle -/

/-- C6. The call `loanBook` succeeds exactly when the item can be borrowed, is available,
and the patron has `borrowedCount < maxBorrow` and `fines < 100`.  On success the ledger maps
the item's ID to the record (item ID, patron ID, `now`, 0), the item is unavailable and
otherwise as before, the patron's `borrowedCount` is one higher and the patron (fines
included) otherwise as before, and every other ledger entry is unchanged. -/
theorem issue_acceptance (lm : LoanManagement) (bookId : Int) (user : User) (book : Book)
    (now : Int) :
    ((lm.loanBook bookId user book now).ok = true ↔
        (book.canBeBorrowed = true ∧ book.available = true ∧
          user.borrowedCount < user.maxBorrow ∧ user.fines < 100)) ∧
      ((lm.loanBook bookId user book now).ok = true →
        (lm.loanBook bookId user book now).lm.activeLoans.find bookId
            = some ⟨bookId, user.getUserId, now, 0⟩ ∧
          (lm.loanBook bookId user book now).book = { book with isAvailable := false } ∧
          (lm.loanBook bookId user book now).book.available = false ∧
          (lm.loanBook bookId user book now).user
            = { user with borrowedCount := user.borrowedCount + 1 } ∧
          (lm.loanBook bookId user book now).user.borrowedCount = user.borrowedCount + 1 ∧
          (lm.loanBook bookId user book now).user.fines = user.fines ∧
          ∀ k, k ≠ bookId →
            (lm.loanBook bookId user book now).lm.activeLoans.find k
              = lm.activeLoans.find k) := by
  constructor
  · rw [loanBook_ok_iff]
    simp [User.canBorrow]
  · intro hok
    rw [loanBook_of_ok lm bookId user book now hok]
    refine ⟨Map.find_set_self _ _ _, rfl, rfl, rfl, rfl, rfl, ?_⟩
    intro k hk
    exact Map.find_set_ne _ _ (fun h => hk h.symm)

/-- C6 at a concrete call: a fresh standard patron borrows an available plain book. -/
theorem issue_acceptance_witness :
    (LoanManagement.loanBook ⟨[]⟩ 8 ann novel 0).ok = true ∧
      (LoanManagement.loanBook ⟨[]⟩ 8 ann novel 0).lm.activeLoans.find 8
        = some ⟨8, ann.getUserId, 0, 0⟩ ∧
      (LoanManagement.loanBook ⟨[]⟩ 8 ann novel 0).book.available = false ∧
      (LoanManagement.loanBook ⟨[]⟩ 8 ann novel 0).user.borrowedCount
        = ann.borrowedCount + 1 :=
  have h := (issue_acceptance ⟨[]⟩ 8 ann novel 0).2 (by decide)
  ⟨by decide, h.1, h.2.2.1, h.2.2.2.2.1⟩

/-- C7. The call `returnBook` of the ledger fails exactly when the ledger has no record for
the item or the record's `userId` is not the requesting patron's ID; each failure reports
its own message and leaves the ledger, the patron and the item as they were.  At the desk,
when the record of item `bookId` names a patron other than `userId`, `returnBook` reports
that this user did not borrow the book and the whole desk state is unchanged, so the record
with its return timestamp, the item's status and both patrons' counters and balances stay
as they were. -/
theorem settle_ownership_check :
    (∀ (lm : LoanManagement) (bookId : Int) (user : User) (book : Book) (now : Int),
      ((lm.returnBook bookId user book now).ok = false ↔
        (lm.activeLoans.find bookId = none ∨
          ∃ record, lm.activeLoans.find bookId = some record ∧
            record.userId ≠ user.getUserId)) ∧
      (lm.activeLoans.find bookId = none →
        lm.returnBook bookId user book now
          = ⟨false, lm, user, book, [.error "No active loan for this book."]⟩) ∧
      (∀ record, lm.activeLoans.find bookId = some record →
        record.userId ≠ user.getUserId →
        lm.returnBook bookId user book now
          = ⟨false, lm, user, book, [.error "This user did not borrow this book."]⟩)) ∧
    (∀ (st : LibraryManagementSystem) (userId bookId now : Int) (user : User) (book : Book)
        (record : LoanRecord),
      st.users.find userId = some user → st.books.find bookId = some book →
      st.loanManagement.activeLoans.find bookId = some record →
      record.userId ≠ user.getUserId →
      st.returnBook userId bookId now
        = (st, [.error "This user did not borrow this book."])) := by
  have hnone : ∀ (lm : LoanManagement) (bookId : Int) (user : User) (book : Book) (now : Int),
      lm.activeLoans.find bookId = none →
        lm.returnBook bookId user book now
          = ⟨false, lm, user, book, [.error "No active loan for this book."]⟩ := by
    intro lm bookId user book now hf
    simp [LoanManagement.returnBook, hf]
  have hother : ∀ (lm : LoanManagement) (bookId : Int) (user : User) (book : Book) (now : Int)
      (record : LoanRecord), lm.activeLoans.find bookId = some record →
        record.userId ≠ user.getUserId →
        lm.returnBook bookId user book now
          = ⟨false, lm, user, book, [.error "This user did not borrow this book."]⟩ := by
    intro lm bookId user book now record hf hne
    simp [LoanManagement.returnBook, hf, hne]
  refine ⟨fun lm bookId user book now => ⟨?_, hnone lm bookId user book now,
    hother lm bookId user book now⟩, ?_⟩
  · constructor
    · intro hfalse
      cases hf : lm.activeLoans.find bookId with
      | none => exact Or.inl rfl
      | some record =>
        refine Or.inr ⟨record, rfl, ?_⟩
        intro heq
        have := (returnBook_ok_iff lm bookId user book now).2 ⟨record, hf, heq⟩
        rw [hfalse] at this
        exact Bool.noConfusion this
    · rintro (hf | ⟨record, hf, hne⟩)
      · rw [hnone lm bookId user book now hf]
      · rw [hother lm bookId user book now record hf hne]
  · intro st userId bookId now user book record hu hb hf hne
    have hr := hother st.loanManagement bookId user book now record hf hne
    simp only [LibraryManagementSystem.returnBook, hu, hb, hr]
    rw [Map.set_eq_self _ hu, Map.set_eq_self _ hb]
    rfl

/-- C7 at a concrete call: patron 1 holds item 7 and patron 2 tries to return it. -/
theorem settle_ownership_check_witness :
    sampleDesk.loanManagement.activeLoans.find 7 = some ⟨7, 1, 0, 0⟩ ∧
      sampleDesk.returnBook 2 7 86400
        = (sampleDesk, [.error "This user did not borrow this book."]) :=
  ⟨by decide,
    settle_ownership_check.2 sampleDesk 2 7 86400 lib (algebra.setAvailable false) ⟨7, 1, 0, 0⟩
      (by decide) (by decide) (by decide) (by decide)⟩

/-- C8. The call `loanBook` on a `ReferenceBook` always fails with the reference-book
message and leaves the ledger, the patron and the item (its availability flag included)
unchanged; and in every state reachable through the desk a registered `ReferenceBook` is
available and has no ledger record. -/
theorem reference_books_never_lent :
    (∀ (lm : LoanManagement) (bookId : Int) (user : User) (book : Book) (now : Int),
      book.cls = BookClass.ReferenceBook →
      lm.loanBook bookId user book now
        = ⟨false, lm, user, book, [.error "Book cannot be borrowed (reference book)."]⟩) ∧
    (∀ (st : LibraryManagementSystem), Reachable st →
      ∀ (id : Int) (b : Book), st.books.find id = some b →
        b.cls = BookClass.ReferenceBook →
        b.available = true ∧ st.loanManagement.activeLoans.find b.getId = none) := by
  constructor
  · intro lm bookId user book now hcls
    simp [LoanManagement.loanBook, Book.canBeBorrowed, hcls]
  · intro st hreach id b hb hcls
    have inv := DeskInv.of_reachable hreach
    have hc : b.canBeBorrowed = false := by simp [Book.canBeBorrowed, hcls]
    have hav : b.isAvailable = true := inv.refAvail id b hb hc
    have hid : b.getId = id := inv.bookKey id b hb
    refine ⟨hav, ?_⟩
    rw [hid]
    cases hl : st.loanManagement.activeLoans.find id with
    | none => rfl
    | some r =>
      have := (inv.avail id b hb).2 (by simp [hl])
      rw [hav] at this
      exact Bool.noConfusion this

/-- C8 at concrete inputs: the registered atlas is a `ReferenceBook`; lending it fails, and
in the sample desk it is available with no ledger record. -/
theorem reference_books_never_lent_witness :
    LoanManagement.loanBook ⟨[]⟩ 9 ann atlas 0
        = ⟨false, ⟨[]⟩, ann, atlas, [.error "Book cannot be borrowed (reference book)."]⟩ ∧
      sampleDesk.books.find 9 = some atlas ∧
      atlas.available = true ∧ sampleDesk.loanManagement.activeLoans.find atlas.getId = none :=
  ⟨reference_books_never_lent.1 ⟨[]⟩ 9 ann atlas 0 rfl, by decide,
    reference_books_never_lent.2 sampleDesk ⟨sampleOps, rfl⟩ 9 atlas (by decide) rfl⟩

/-! ## Reservations -/

theorem sizeToInt_of_lt (n : Nat) (h : n < 2 ^ 31) : sizeToInt n = (n : Int) := by
  unfold sizeToInt
  have h1 : n % 2 ^ 32 = n := Nat.mod_eq_of_lt (by omega)
  rw [h1, if_pos h]

theorem touch_of_some (res : Map (List Int)) (bookId : Int) (q : List Int)
    (h : res.find bookId = some q) : ReservationSystem.touch res bookId = res := by
  simp [ReservationSystem.touch, h]

theorem find_touch_of_none (res : Map (List Int)) (bookId : Int)
    (h : res.find bookId = none) :
    (ReservationSystem.touch res bookId).find bookId = some [] := by
  simp [ReservationSystem.touch, h, Map.find_set_self]

/-- A failed `reserveBook` leaves the reservation system as it was and reports one of its
two errors. -/
theorem reserveBook_of_not_ok (rs : ReservationSystem) (bookId userId : Int)
    (h : (rs.reserveBook bookId userId).1 = false) :
    (rs.reserveBook bookId userId).2.1 = rs ∧
      ((rs.reserveBook bookId userId).2.2 = [.error "Reservation queue is full."] ∨
        (rs.reserveBook bookId userId).2.2
          = [.error "User has already reserved this book."]) := by
  cases hf : rs.reservations.find bookId with
  | none =>
    have ht := find_touch_of_none rs.reservations bookId hf
    have hs : sizeToInt 0 = 0 := by decide
    simp [ReservationSystem.reserveBook, ht, hs, ReservationSystem.maxQueueSize] at h
  | some q =>
    have ht := touch_of_some rs.reservations bookId q hf
    unfold ReservationSystem.reserveBook at h ⊢
    simp only [ht, hf, Option.getD_some] at h ⊢
    split
    · exact ⟨rfl, Or.inl rfl⟩
    · rename_i hsize
      simp only [hsize, if_false] at h
      split
      · exact ⟨rfl, Or.inr rfl⟩
      · rename_i hany
        simp [hany] at h

theorem reserveBook_out_of_ok (rs : ReservationSystem) (bookId userId : Int)
    (h : (rs.reserveBook bookId userId).1 = true) :
    (rs.reserveBook bookId userId).2.2 = [.log "Book reserved successfully."] := by
  unfold ReservationSystem.reserveBook at h ⊢
  simp only at h ⊢
  split
  · rename_i hsize
    simp [hsize] at h
  · rename_i hsize
    simp only [hsize, if_false] at h
    split
    · rename_i hany
      simp [hany] at h
    · rfl

/-! ## Rejected requests -/

/-- C9. A request to the desk that is rejected, that is, whose output carries an error
report, leaves the desk in the state it was in: the patron and item registries with every
counter, balance and availability flag, the ledger and every reservation queue.  This holds
for `addUser`, `addBook`, `borrowBook`, `returnBook` and `reserveBook`. -/
theorem no_partial_mutation_on_failure (st : LibraryManagementSystem) :
    (∀ user : User, rejected (st.addUser user).2 = true → (st.addUser user).1 = st) ∧
    (∀ book : Book, rejected (st.addBook book).2 = true → (st.addBook book).1 = st) ∧
    (∀ userId bookId now : Int, rejected (st.borrowBook userId bookId now).2 = true →
      (st.borrowBook userId bookId now).1 = st) ∧
    (∀ userId bookId now : Int, rejected (st.returnBook userId bookId now).2 = true →
      (st.returnBook userId bookId now).1 = st) ∧
    (∀ userId bookId : Int, rejected (st.reserveBook userId bookId).2 = true →
      (st.reserveBook userId bookId).1 = st) := by
  refine ⟨?_, ?_, ?_, ?_, ?_⟩
  · intro user hrej
    unfold LibraryManagementSystem.addUser at hrej ⊢
    cases hf : st.users.find user.getUserId with
    | some u => rfl
    | none => simp [hf, rejected, Output.isError] at hrej
  · intro book hrej
    unfold LibraryManagementSystem.addBook at hrej ⊢
    cases hf : st.books.find book.getId with
    | some u => rfl
    | none => simp [hf, rejected, Output.isError] at hrej
  · intro userId bookId now hrej
    cases hu : st.users.find userId with
    | none => simp [LibraryManagementSystem.borrowBook, hu]
    | some user =>
    cases hb : st.books.find bookId with
    | none => simp [LibraryManagementSystem.borrowBook, hu, hb]
    | some book =>
    cases hok : (st.loanManagement.loanBook bookId user book now).ok with
    | false => exact LibraryManagementSystem.desk_borrowBook_of_not_ok st now hu hb hok
    | true =>
      have hr := loanBook_of_ok _ _ _ _ _ hok
      simp [LibraryManagementSystem.borrowBook, hu, hb, hr, rejected, Output.isError] at hrej
  · intro userId bookId now hrej
    cases hu : st.users.find userId with
    | none => simp [LibraryManagementSystem.returnBook, hu]
    | some user =>
    cases hb : st.books.find bookId with
    | none => simp [LibraryManagementSystem.returnBook, hu, hb]
    | some book =>
    cases hok : (st.loanManagement.returnBook bookId user book now).ok with
    | false => exact LibraryManagementSystem.desk_returnBook_of_not_ok st now hu hb hok
    | true =>
      obtain ⟨record, hf, hr⟩ := (returnBook_ok_iff _ _ _ _ _).1 hok
      have hres := returnBook_of_ok st.loanManagement bookId user book now record hf hr
      have hn : rejected (st.reservationSystem.notifyNextUser bookId).2 = false := by
        unfold ReservationSystem.notifyNextUser
        split <;> simp [rejected, Output.isError]
      simp only [LibraryManagementSystem.returnBook, hu, hb, hres, if_true] at hrej
      simp only [rejected, List.any_append, Bool.or_eq_true] at hrej hn
      rcases hrej with (hrej | hrej) | hrej
      · split at hrej <;> simp [Output.isError] at hrej
      · simp [Output.isError] at hrej
      · rw [hn] at hrej
        exact Bool.noConfusion hrej
  · intro userId bookId hrej
    unfold LibraryManagementSystem.reserveBook at hrej ⊢
    cases hu : st.users.find userId with
    | none => rfl
    | some user =>
    cases hb : st.books.find bookId with
    | none => rfl
    | some book =>
      simp only [hu, hb] at hrej ⊢
      cases hok : (st.reservationSystem.reserveBook bookId userId).1 with
      | false =>
        rw [(reserveBook_of_not_ok _ _ _ hok).1]
      | true =>
        rw [reserveBook_out_of_ok _ _ _ hok] at hrej
        simp [rejected, Output.isError] at hrej

/-- C9 at a concrete request: patron 2 asks for item 7, which patron 1 holds. -/
theorem no_partial_mutation_on_failure_witness :
    rejected (sampleDesk.borrowBook 2 7 5).2 = true ∧
      (sampleDesk.borrowBook 2 7 5).1 = sampleDesk :=
  ⟨by decide, (no_partial_mutation_on_failure sampleDesk).2.2.1 2 7 5 (by decide)⟩

/-! ## Reserving twice -/

theorem queue_touch (rs : ReservationSystem) (bookId : Int) :
    ((ReservationSystem.touch rs.reservations bookId).find bookId).getD [] = rs.queue bookId := by
  unfold ReservationSystem.queue
  cases hf : rs.reservations.find bookId with
  | none => simp [find_touch_of_none _ _ hf]
  | some q => simp [touch_of_some _ _ q hf, hf]

/-- A successful `reserveBook` found the queue below capacity and without the patron, and
appended the patron at its tail. -/
theorem reserveBook_of_ok (rs : ReservationSystem) (bookId userId : Int)
    (h : (rs.reserveBook bookId userId).1 = true) :
    sizeToInt (rs.queue bookId).length < ReservationSystem.maxQueueSize ∧
      userId ∉ rs.queue bookId ∧
      (rs.reserveBook bookId userId).2.1
        = ⟨(ReservationSystem.touch rs.reservations bookId).set bookId
            (rs.queue bookId ++ [userId])⟩ := by
  unfold ReservationSystem.reserveBook at h ⊢
  simp only [queue_touch] at h ⊢
  split
  · rename_i hsize
    simp [hsize] at h
  · rename_i hsize
    simp only [hsize, if_false] at h
    split
    · rename_i hany
      simp [hany] at h
    · rename_i hany
      refine ⟨not_le.1 hsize, ?_, rfl⟩
      intro hmem
      apply hany
      rw [List.any_eq_true]
      exact ⟨userId, hmem, by simp⟩

/-- The outcome of `reserveBook` when the item's queue exists and already holds the
patron: the capacity check comes first, the duplicate check second. -/
theorem reserveBook_of_mem (rs : ReservationSystem) (bookId userId : Int) (q : List Int)
    (hf : rs.reservations.find bookId = some q) (hmem : userId ∈ q) :
    rs.reserveBook bookId userId
      = (false, rs,
          [.error (if sizeToInt q.length ≥ ReservationSystem.maxQueueSize
            then "Reservation queue is full." else "User has already reserved this book.")]) := by
  have hany : q.any (fun uid => uid == userId) = true := by
    rw [List.any_eq_true]
    exact ⟨userId, hmem, by simp⟩
  unfold ReservationSystem.reserveBook
  simp only [touch_of_some _ _ q hf, hf, Option.getD_some, hany, if_true]
  split <;> rfl

/-- C10 fails as stated: with nine patrons already waiting for item 7, patron 20 reserves
successfully, and the second reservation is then refused because the queue is full, not
because patron 20 has already reserved. -/
theorem second_reserve_reports_queue_full :
    (nineWaiting.reserveBook 7 20).1 = true ∧
      ((nineWaiting.reserveBook 7 20).2.1.reserveBook 7 20).1 = false ∧
      ((nineWaiting.reserveBook 7 20).2.1.reserveBook 7 20).2.2
        = [.error "Reservation queue is full."] ∧
      ((nineWaiting.reserveBook 7 20).2.1.reserveBook 7 20).2.2
        ≠ [.error "User has already reserved this book."] := by
  decide

/-- C10, amended. If `reserveBook` succeeds for a patron, the patron is at the tail of the
item's queue, and an immediately following second `reserveBook` for the same item and
patron fails and leaves the reservation system, hence the queue and its length, unchanged.
The capacity check runs before the duplicate check: the failure reported is the
already-reserved one when the first call found fewer than 9 entries in the queue, and the
queue-full one when it found exactly 9. -/
theorem reserve_twice (rs : ReservationSystem) (bookId p : Int)
    (h : (rs.reserveBook bookId p).1 = true) :
    (rs.reserveBook bookId p).2.1.queue bookId = rs.queue bookId ++ [p] ∧
      ((rs.reserveBook bookId p).2.1.reserveBook bookId p).1 = false ∧
      ((rs.reserveBook bookId p).2.1.reserveBook bookId p).2.1 = (rs.reserveBook bookId p).2.1 ∧
      ((rs.reserveBook bookId p).2.1.reserveBook bookId p).2.2
        = [.error (if sizeToInt ((rs.reserveBook bookId p).2.1.queue bookId).length
              ≥ ReservationSystem.maxQueueSize
            then "Reservation queue is full." else "User has already reserved this book.")] ∧
      ((rs.queue bookId).length < 9 →
        ((rs.reserveBook bookId p).2.1.reserveBook bookId p).2.2
          = [.error "User has already reserved this book."]) ∧
      ((rs.queue bookId).length = 9 →
        ((rs.reserveBook bookId p).2.1.reserveBook bookId p).2.2
          = [.error "Reservation queue is full."]) := by
  obtain ⟨-, -, hst⟩ := reserveBook_of_ok rs bookId p h
  have hfind : (rs.reserveBook bookId p).2.1.reservations.find bookId
      = some (rs.queue bookId ++ [p]) := by
    rw [hst]
    exact Map.find_set_self _ _ _
  have hq : (rs.reserveBook bookId p).2.1.queue bookId = rs.queue bookId ++ [p] := by
    simp [ReservationSystem.queue, hfind]
  have hsecond := reserveBook_of_mem (rs.reserveBook bookId p).2.1 bookId p
    (rs.queue bookId ++ [p]) hfind (by simp)
  rw [hsecond, hq]
  refine ⟨rfl, rfl, rfl, rfl, ?_, ?_⟩
  · intro hlen
    have hs : sizeToInt (rs.queue bookId ++ [p]).length
        = ((rs.queue bookId ++ [p]).length : Int) :=
      sizeToInt_of_lt _ (by simp; omega)
    have hlt : ¬ sizeToInt (rs.queue bookId ++ [p]).length ≥ ReservationSystem.maxQueueSize := by
      rw [hs]
      simp [ReservationSystem.maxQueueSize]
      omega
    simp only [hlt, if_false]
  · intro hlen
    have hs : sizeToInt (rs.queue bookId ++ [p]).length
        = ((rs.queue bookId ++ [p]).length : Int) :=
      sizeToInt_of_lt _ (by simp; omega)
    have hge : sizeToInt (rs.queue bookId ++ [p]).length ≥ ReservationSystem.maxQueueSize := by
      rw [hs]
      simp [ReservationSystem.maxQueueSize, hlen]
    simp only [hge, if_true]

/-- C10, amended, at two concrete queues: patron 5 joins a queue of two and is then told
the reservation exists already; patron 20 joins the queue of nine and is then told the
queue is full. -/
theorem reserve_twice_witness :
    ((ReservationSystem.reserveBook ⟨[(7, [3, 4])]⟩ 7 5).1 = true ∧
      ((ReservationSystem.reserveBook ⟨[(7, [3, 4])]⟩ 7 5).2.1.reserveBook 7 5).2.2
        = [.error "User has already reserved this book."]) ∧
    ((nineWaiting.reserveBook 7 20).1 = true ∧
      ((nineWaiting.reserveBook 7 20).2.1.reserveBook 7 20).2.1
        = (nineWaiting.reserveBook 7 20).2.1) :=
  ⟨⟨by decide, (reserve_twice ⟨[(7, [3, 4])]⟩ 7 5 (by decide)).2.2.2.2.1 (by decide)⟩,
    ⟨by decide, (reserve_twice nineWaiting 7 20 (by decide)).2.2.1⟩⟩

/-! ## Reservation capacity -/

/-- The three outcomes of `reserveBook`, in terms of the item's queue before the call. -/
theorem reserveBook_eq (rs : ReservationSystem) (bookId userId : Int) :
    rs.reserveBook bookId userId =
      if sizeToInt (rs.queue bookId).length ≥ ReservationSystem.maxQueueSize then
        (false, ⟨ReservationSystem.touch rs.reservations bookId⟩,
          [.error "Reservation queue is full."])
      else if (rs.queue bookId).any (fun uid => uid == userId) then
        (false, ⟨ReservationSystem.touch rs.reservations bookId⟩,
          [.error "User has already reserved this book."])
      else
        (true, ⟨(ReservationSystem.touch rs.reservations bookId).set bookId
            (rs.queue bookId ++ [userId])⟩, [.log "Book reserved successfully."]) := by
  unfold ReservationSystem.reserveBook
  simp only [queue_touch]

theorem queue_mk_touch (rs : ReservationSystem) (bookId : Int) :
    (⟨ReservationSystem.touch rs.reservations bookId⟩ : ReservationSystem).queue bookId
      = rs.queue bookId := by
  have := queue_touch rs bookId
  simpa [ReservationSystem.queue] using this

theorem queue_mk_set (res : Map (List Int)) (bookId : Int) (q : List Int) :
    (⟨Map.set res bookId q⟩ : ReservationSystem).queue bookId = q := by
  simp [ReservationSystem.queue, Map.find_set_self]

theorem queue_mk_set_ne (res : Map (List Int)) {bookId other : Int} (q : List Int)
    (h : bookId ≠ other) :
    (⟨Map.set res bookId q⟩ : ReservationSystem).queue other
      = (⟨res⟩ : ReservationSystem).queue other := by
  simp [ReservationSystem.queue, Map.find_set_ne _ _ h]

theorem any_eq_false_of_not_mem (q : List Int) (p : Int) (h : p ∉ q) :
    q.any (fun uid => uid == p) = false := by
  rw [List.any_eq_false]
  intro x hx hxp
  have : x = p := by simpa using hxp
  exact h (this ▸ hx)

theorem map_capacityOutcome_full (s n : Nat) (h : 10 ≤ s) :
    (List.range' s n).map capacityOutcome
      = List.replicate n (false, [Output.error "Reservation queue is full."]) := by
  induction n generalizing s with
  | zero => rfl
  | succ n ih =>
    have hs : ¬ s + 1 ≤ 10 := by omega
    rw [List.range'_succ, List.map_cons, ih (s + 1) (by omega), List.replicate_succ]
    simp [capacityOutcome, hs]

/-- Reserving a list of patrons in turn, from a queue within capacity that holds none of
them and none twice. -/
theorem reserveAll_spec (rs : ReservationSystem) (bookId : Int) (ps : List Int)
    (hlen : (rs.queue bookId).length ≤ 10) (hnd : (rs.queue bookId ++ ps).Nodup) :
    (rs.reserveAll bookId ps).1.queue bookId = (rs.queue bookId ++ ps).take 10 ∧
      (rs.reserveAll bookId ps).2
        = (List.range' (rs.queue bookId).length ps.length).map capacityOutcome := by
  induction ps generalizing rs with
  | nil =>
    simp only [ReservationSystem.reserveAll, List.append_nil, List.length_nil]
    exact ⟨(List.take_of_length_le hlen).symm, rfl⟩
  | cons p ps ih =>
    have hsz : sizeToInt (rs.queue bookId).length = ((rs.queue bookId).length : Int) :=
      sizeToInt_of_lt _ (by omega)
    have hp : p ∉ rs.queue bookId := by
      intro hmem
      have := List.disjoint_of_nodup_append hnd hmem
      exact this (List.mem_cons_self _ _)
    by_cases hfull : (rs.queue bookId).length < 10
    · have hlt : ¬ sizeToInt (rs.queue bookId).length ≥ ReservationSystem.maxQueueSize := by
        rw [hsz]
        simp [ReservationSystem.maxQueueSize]
        omega
      have hcall : rs.reserveBook bookId p
          = (true, ⟨(ReservationSystem.touch rs.reservations bookId).set bookId
              (rs.queue bookId ++ [p])⟩, [.log "Book reserved successfully."]) := by
        rw [reserveBook_eq]
        simp only [hlt, if_false, any_eq_false_of_not_mem _ _ hp]
        rfl
      have hq := queue_mk_set (ReservationSystem.touch rs.reservations bookId) bookId
        (rs.queue bookId ++ [p])
      have hnd' : (rs.queue bookId ++ [p] ++ ps).Nodup := by
        simpa [List.append_assoc] using hnd
      have := ih _ (by rw [hq]; simp; omega) (by rw [hq]; exact hnd')
      simp only [ReservationSystem.reserveAll, hcall]
      rw [this.1, this.2, hq]
      refine ⟨by simp [List.append_assoc], ?_⟩
      simp only [List.length_cons, List.range'_succ, List.map_cons, List.length_append,
        List.length_nil, List.length_singleton]
      have hc : capacityOutcome (rs.queue bookId).length
          = (true, [.log "Book reserved successfully."]) := by
        have : (rs.queue bookId).length + 1 ≤ 10 := by omega
        simp [capacityOutcome, this]
      rw [hc]
    · have hten : (rs.queue bookId).length = 10 := by omega
      have hge : sizeToInt (rs.queue bookId).length ≥ ReservationSystem.maxQueueSize := by
        rw [hsz, hten]
        simp [ReservationSystem.maxQueueSize]
      have hcall : rs.reserveBook bookId p
          = (false, ⟨ReservationSystem.touch rs.reservations bookId⟩,
              [.error "Reservation queue is full."]) := by
        rw [reserveBook_eq]
        simp only [hge, if_true]
      have hq := queue_mk_touch rs bookId
      have hnd' : (rs.queue bookId ++ ps).Nodup := by
        have hsub : (rs.queue bookId ++ ps).Sublist (rs.queue bookId ++ p :: ps) :=
          List.Sublist.append_left (List.sublist_cons_self p ps) _
        exact hnd.sublist hsub
      have := ih _ (by rw [hq]; exact hlen) (by rw [hq]; exact hnd')
      simp only [ReservationSystem.reserveAll, hcall]
      rw [this.1, this.2, hq]
      refine ⟨?_, ?_⟩
      · rw [List.take_append_of_le_length (by omega), List.take_append_of_le_length (by omega)]
      · simp only [List.length_cons, List.range'_succ, List.map_cons]
        rw [map_capacityOutcome_full _ _ (by omega), map_capacityOutcome_full _ _ (by omega)]
        have hc : capacityOutcome (rs.queue bookId).length
            = (false, [.error "Reservation queue is full."]) := by
          have : ¬ (rs.queue bookId).length + 1 ≤ 10 := by omega
          simp [capacityOutcome, this]
        rw [hc]

/-- C11. Starting from an item with no reservations, a list of pairwise-distinct patrons is
reserved for it in turn.  The call number `k` (counting from 1) succeeds when `k ≤ 10` and
fails with the queue-full error when `k > 10`, and the queue afterwards is the first
`min(n, 10)` patrons of the list, in the order they reserved. -/
theorem reservation_capacity (rs : ReservationSystem) (bookId : Int) (ps : List Int)
    (hempty : rs.queue bookId = []) (hdistinct : ps.Nodup) :
    (rs.reserveAll bookId ps).2 = (List.range ps.length).map capacityOutcome ∧
      (∀ k, k < ps.length →
        ((((rs.reserveAll bookId ps).2.map Prod.fst)[k]? = some true) ↔ k + 1 ≤ 10)) ∧
      (rs.reserveAll bookId ps).1.queue bookId = ps.take 10 ∧
      ((rs.reserveAll bookId ps).1.queue bookId).length = min ps.length 10 := by
  have h := reserveAll_spec rs bookId ps (by simp [hempty]) (by simpa [hempty] using hdistinct)
  rw [hempty] at h
  simp only [List.nil_append, List.length_nil] at h
  have hres : (rs.reserveAll bookId ps).2 = (List.range ps.length).map capacityOutcome := by
    rw [h.2, List.range_eq_range']
  refine ⟨hres, ?_, h.1, ?_⟩
  · intro k hk
    rw [hres]
    simp only [List.map_map, List.getElem?_map, List.getElem?_range hk, Option.map_some',
      Function.comp_apply, Option.some.injEq]
    unfold capacityOutcome
    by_cases hle : k + 1 ≤ 10 <;> simp [hle]
  · rw [h.1, List.length_take, Nat.min_comm]

/-- C11 at eleven patrons: the first ten calls succeed, the eleventh reports a full queue,
and the queue holds the first ten patrons in order. -/
theorem reservation_capacity_witness :
    ReservationSystem.empty.queue 7 = [] ∧ elevenPatrons.Nodup ∧
      (ReservationSystem.empty.reserveAll 7 elevenPatrons).1.queue 7
        = [1, 2, 3, 4, 5, 6, 7, 8, 9, 10] ∧
      ((ReservationSystem.empty.reserveAll 7 elevenPatrons).2.map Prod.fst)[9]? = some true ∧
      (ReservationSystem.empty.reserveAll 7 elevenPatrons).2[10]?
        = some (false, [.error "Reservation queue is full."]) :=
  have h := reservation_capacity ReservationSystem.empty 7 elevenPatrons rfl (by decide)
  ⟨rfl, by decide, h.2.2.1.trans (by decide), (h.2.1 9 (by decide)).2 (by decide),
    by rw [h.1]; decide⟩

/-! ## The reservation queue invariant -/

theorem drain_eq_filter (q : List Int) (userId : Int) (acc : List Int) :
    ReservationSystem.drain q userId acc = acc ++ q.filter (fun uid => decide (uid ≠ userId)) := by
  induction q generalizing acc with
  | nil => simp [ReservationSystem.drain]
  | cons uid rest ih =>
    by_cases h : uid = userId
    · simp [ReservationSystem.drain, ih, h]
    · simp [ReservationSystem.drain, ih, h, List.filter_cons]

theorem QueueInv.of_queueSet {res : Map (List Int)} (h : QueueInv ⟨res⟩) (bookId : Int)
    (q : List Int) (hq : q.length ≤ 10 ∧ q.Nodup) : QueueInv ⟨Map.set res bookId q⟩ := by
  intro k q' hf
  by_cases hk : bookId = k
  · subst hk
    simp only [Map.find_set_self, Option.some.injEq] at hf
    rw [← hf]
    exact hq
  · simp only [Map.find_set_ne _ _ hk] at hf
    exact h k q' hf

theorem QueueInv.of_touch {rs : ReservationSystem} (h : QueueInv rs) (bookId : Int) :
    QueueInv ⟨ReservationSystem.touch rs.reservations bookId⟩ := by
  unfold ReservationSystem.touch
  cases hf : rs.reservations.find bookId with
  | some q => exact h
  | none => exact QueueInv.of_queueSet h bookId [] (by simp)

theorem QueueInv.queue_bound {rs : ReservationSystem} (h : QueueInv rs) (bookId : Int) :
    (rs.queue bookId).length ≤ 10 ∧ (rs.queue bookId).Nodup := by
  unfold ReservationSystem.queue
  cases hf : rs.reservations.find bookId with
  | some q => simpa using h bookId q hf
  | none => simp

theorem QueueInv.of_queueReserve {rs : ReservationSystem} (h : QueueInv rs)
    (bookId userId : Int) : QueueInv (rs.reserveBook bookId userId).2.1 := by
  rw [reserveBook_eq]
  have hq := h.queue_bound bookId
  split
  · exact h.of_touch bookId
  · rename_i hsize
    split
    · exact h.of_touch bookId
    · rename_i hany
      refine QueueInv.of_queueSet (h.of_touch bookId) bookId _ ⟨?_, ?_⟩
      · have hsz : sizeToInt (rs.queue bookId).length = ((rs.queue bookId).length : Int) :=
          sizeToInt_of_lt _ (by omega)
        rw [hsz] at hsize
        simp only [ReservationSystem.maxQueueSize, ge_iff_le, not_le] at hsize
        simp only [List.length_append, List.length_singleton]
        omega
      · rw [List.nodup_append]
        refine ⟨hq.2, by simp, ?_⟩
        intro a ha hb
        simp only [List.mem_singleton] at hb
        subst hb
        apply hany
        rw [List.any_eq_true]
        exact ⟨a, ha, by simp⟩

theorem QueueInv.of_notifyNextUser {rs : ReservationSystem} (h : QueueInv rs)
    (bookId : Int) : QueueInv (rs.notifyNextUser bookId).1 := by
  unfold ReservationSystem.notifyNextUser
  split
  · exact h
  · exact h
  · rename_i nextUser rest hf
    have hq := h bookId _ hf
    refine QueueInv.of_queueSet h bookId rest ⟨?_, ?_⟩
    · have := hq.1
      simp only [List.length_cons] at this
      omega
    · exact (List.nodup_cons.1 hq.2).2

theorem QueueInv.of_cancelReservation {rs : ReservationSystem} (h : QueueInv rs)
    (bookId userId : Int) : QueueInv (rs.cancelReservation bookId userId).1 := by
  unfold ReservationSystem.cancelReservation
  split
  · exact h
  · rename_i q hf
    have hq := h bookId _ hf
    refine QueueInv.of_queueSet h bookId _ ⟨?_, ?_⟩
    · rw [drain_eq_filter, List.nil_append]
      exact le_trans (List.length_filter_le _ _) hq.1
    · rw [drain_eq_filter, List.nil_append]
      exact hq.2.filter _

theorem QueueInv.of_queueRun {rs : ReservationSystem} (h : QueueInv rs)
    (ops : List ReservationOp) : QueueInv (rs.run ops) := by
  induction ops generalizing rs with
  | nil => exact h
  | cons op ops ih =>
    apply ih
    cases op with
    | reserveBook bookId userId => exact h.of_queueReserve bookId userId
    | notifyNextUser bookId => exact h.of_notifyNextUser bookId
    | cancelReservation bookId userId => exact h.of_cancelReservation bookId userId

/-- C12. In every state reachable from an empty reservation system through `reserveBook`,
`notifyNextUser` and `cancelReservation`, every item's queue has at most 10 entries and
holds no patron ID more than once. -/
theorem reservation_queue_invariant (rs : ReservationSystem) (h : QueueReachable rs)
    (bookId : Int) :
    (rs.queue bookId).length ≤ 10 ∧ (rs.queue bookId).Nodup ∧
      (∀ q, rs.reservations.find bookId = some q → q.length ≤ 10 ∧ q.Nodup) := by
  obtain ⟨ops, rfl⟩ := h
  have hempty : QueueInv ReservationSystem.empty := by
    intro k q hf
    simp [ReservationSystem.empty, Map.find] at hf
  have inv := hempty.of_queueRun ops
  exact ⟨(inv.queue_bound bookId).1, (inv.queue_bound bookId).2, inv bookId⟩

/-- C12 on a concrete run: after the sample calls the queue of item 7 is `[3]`. -/
theorem reservation_queue_invariant_witness :
    QueueReachable (ReservationSystem.empty.run sampleQueueOps) ∧
      (ReservationSystem.empty.run sampleQueueOps).queue 7 = [3] ∧
      ((ReservationSystem.empty.run sampleQueueOps).queue 7).length ≤ 10 ∧
      ((ReservationSystem.empty.run sampleQueueOps).queue 7).Nodup :=
  have h := reservation_queue_invariant (ReservationSystem.empty.run sampleQueueOps)
    ⟨sampleQueueOps, rfl⟩ 7
  ⟨⟨sampleQueueOps, rfl⟩, by decide, h.1, h.2.1⟩

/-! ## Notification and cancellation -/

/-- C13. When the item's queue is non-empty, `notifyNextUser` reports its head entry, removes
exactly that entry and leaves the remaining entries in their order; since `reserveBook`
appends at the tail, the head is the pending reservation made earliest.  When the item has
no queue or an empty one, nothing is reported and nothing changes.  The queues of other
items are unchanged in both cases. -/
theorem fifo_notification (rs : ReservationSystem) (bookId : Int) :
    (∀ head rest, rs.queue bookId = head :: rest →
      (rs.notifyNextUser bookId).2 = [.notification head bookId] ∧
        (rs.notifyNextUser bookId).1.queue bookId = rest) ∧
    (rs.queue bookId = [] → rs.notifyNextUser bookId = (rs, [])) ∧
    (∀ other, other ≠ bookId →
      (rs.notifyNextUser bookId).1.reservations.find other = rs.reservations.find other) ∧
    (∀ p, (rs.reserveBook bookId p).1 = true →
      (rs.reserveBook bookId p).2.1.queue bookId = rs.queue bookId ++ [p]) := by
  refine ⟨?_, ?_, ?_, ?_⟩
  · intro head rest hq
    unfold ReservationSystem.queue at hq
    cases hf : rs.reservations.find bookId with
    | none => simp [hf] at hq
    | some q =>
      simp only [hf, Option.getD_some] at hq
      subst hq
      simp [ReservationSystem.notifyNextUser, hf, ReservationSystem.queue, Map.find_set_self]
  · intro hq
    unfold ReservationSystem.queue at hq
    cases hf : rs.reservations.find bookId with
    | none => simp [ReservationSystem.notifyNextUser, hf]
    | some q =>
      simp only [hf, Option.getD_some] at hq
      subst hq
      simp [ReservationSystem.notifyNextUser, hf]
  · intro other hne
    unfold ReservationSystem.notifyNextUser
    split
    · rfl
    · rfl
    · exact Map.find_set_ne _ _ (fun h => hne h.symm)
  · intro p hok
    rw [(reserveBook_of_ok rs bookId p hok).2.2]
    exact queue_mk_set _ _ _

/-- C13 at concrete queues: with patrons 4, 5, 4, 6 waiting for item 7, patron 4 is notified
and 5, 4, 6 remain; for item 3, which has no queue, nothing happens. -/
theorem fifo_notification_witness :
    (handQueues.notifyNextUser 7).2 = [.notification 4 7] ∧
      (handQueues.notifyNextUser 7).1.queue 7 = [5, 4, 6] ∧
      handQueues.notifyNextUser 3 = (handQueues, []) :=
  ⟨((fifo_notification handQueues 7).1 4 [5, 4, 6] (by decide)).1,
    ((fifo_notification handQueues 7).1 4 [5, 4, 6] (by decide)).2,
    (fifo_notification handQueues 3).2.1 (by decide)⟩

/-- C14. After `cancelReservation` the item's queue is the previous queue without the entries
equal to the patron, the other entries keeping their relative order.  When the item has no
queue, or the patron is not in it, the reservation system is left as it was.  The queues of
other items are never affected. -/
theorem cancel_is_order_preserving_filter (rs : ReservationSystem) (bookId p : Int) :
    (rs.cancelReservation bookId p).1.queue bookId
        = (rs.queue bookId).filter (fun uid => decide (uid ≠ p)) ∧
      (rs.reservations.find bookId = none → rs.cancelReservation bookId p = (rs, [])) ∧
      (p ∉ rs.queue bookId →
        (rs.cancelReservation bookId p).1 = rs ∧
          (rs.cancelReservation bookId p).1.queue bookId = rs.queue bookId) ∧
      (∀ other, other ≠ bookId →
        (rs.cancelReservation bookId p).1.reservations.find other
          = rs.reservations.find other) := by
  have hfilter : (rs.cancelReservation bookId p).1.queue bookId
      = (rs.queue bookId).filter (fun uid => decide (uid ≠ p)) := by
    unfold ReservationSystem.cancelReservation ReservationSystem.queue
    cases hf : rs.reservations.find bookId with
    | none => simp [hf]
    | some q => simp [Map.find_set_self, drain_eq_filter]
  have hsame : p ∉ rs.queue bookId → (rs.cancelReservation bookId p).1 = rs := by
    intro hp
    unfold ReservationSystem.queue at hp
    unfold ReservationSystem.cancelReservation
    cases hf : rs.reservations.find bookId with
    | none => rfl
    | some q =>
      simp only [hf, Option.getD_some] at hp
      have hq : q.filter (fun uid => decide (uid ≠ p)) = q := by
        rw [List.filter_eq_self]
        intro a ha
        have : a ≠ p := fun h => hp (h ▸ ha)
        simpa using this
      simp only [drain_eq_filter, List.nil_append, hq]
      rw [Map.set_eq_self _ hf]
  refine ⟨hfilter, ?_, ?_, ?_⟩
  · intro hf
    simp [ReservationSystem.cancelReservation, hf]
  · intro hp
    refine ⟨hsame hp, ?_⟩
    rw [hsame hp]
  · intro other hne
    unfold ReservationSystem.cancelReservation
    split
    · rfl
    · exact Map.find_set_ne _ _ (fun h => hne h.symm)

/-- C14 at concrete queues: cancelling patron 4 on item 7 turns 4, 5, 4, 6 into 5, 6 and
leaves item 8 alone; cancelling patron 1, who is not waiting, changes nothing. -/
theorem cancel_is_order_preserving_filter_witness :
    (handQueues.cancelReservation 7 4).1.queue 7 = [5, 6] ∧
      (handQueues.cancelReservation 7 4).1.reservations.find 8 = some [9] ∧
      (handQueues.cancelReservation 7 1).1 = handQueues :=
  ⟨(cancel_is_order_preserving_filter handQueues 7 4).1.trans (by decide),
    ((cancel_is_order_preserving_filter handQueues 7 4).2.2.2 8 (by decide)).trans
      (by decide),
    ((cancel_is_order_preserving_filter handQueues 7 1).2.2.1 (by decide)).1⟩

/-! ## Registry uniqueness -/

/-- C15. The call `addUser` (resp. `addBook`) with an ID that is already registered reports
that the ID exists and leaves the whole desk, the existing entry with its counters, balance
or availability included, exactly as it was.  With an ID that is not registered, the object
is stored under its ID, every other registry entry is unchanged, and so are the other
registry, the ledger and the reservations. -/
theorem registry_uniqueness (st : LibraryManagementSystem) :
    (∀ (user old : User), st.users.find user.getUserId = some old →
      st.addUser user = (st, [.error "User ID already exists."])) ∧
    (∀ user : User, st.users.find user.getUserId = none →
      (st.addUser user).2 = [.log "User added."] ∧
        (st.addUser user).1.users.find user.getUserId = some user ∧
        (∀ k, k ≠ user.getUserId → (st.addUser user).1.users.find k = st.users.find k) ∧
        (st.addUser user).1.books = st.books ∧
        (st.addUser user).1.loanManagement = st.loanManagement ∧
        (st.addUser user).1.reservationSystem = st.reservationSystem) ∧
    (∀ (book old : Book), st.books.find book.getId = some old →
      st.addBook book = (st, [.error "Book ID already exists."])) ∧
    (∀ book : Book, st.books.find book.getId = none →
      (st.addBook book).2 = [.log "Book added."] ∧
        (st.addBook book).1.books.find book.getId = some book ∧
        (∀ k, k ≠ book.getId → (st.addBook book).1.books.find k = st.books.find k) ∧
        (st.addBook book).1.users = st.users ∧
        (st.addBook book).1.loanManagement = st.loanManagement ∧
        (st.addBook book).1.reservationSystem = st.reservationSystem) := by
  refine ⟨?_, ?_, ?_, ?_⟩
  · intro user old hf
    simp [LibraryManagementSystem.addUser, hf]
  · intro user hf
    have e : st.addUser user
        = ({ st with users := st.users.set user.getUserId user }, [.log "User added."]) := by
      simp only [LibraryManagementSystem.addUser, hf]
    rw [e]
    refine ⟨rfl, Map.find_set_self _ _ _, ?_, rfl, rfl, rfl⟩
    intro k hk
    exact Map.find_set_ne _ _ (fun h => hk h.symm)
  · intro book old hf
    simp [LibraryManagementSystem.addBook, hf]
  · intro book hf
    have e : st.addBook book
        = ({ st with books := st.books.set book.getId book }, [.log "Book added."]) := by
      simp only [LibraryManagementSystem.addBook, hf]
    rw [e]
    refine ⟨rfl, Map.find_set_self _ _ _, ?_, rfl, rfl, rfl⟩
    intro k hk
    exact Map.find_set_ne _ _ (fun h => hk h.symm)

/-- C15 at concrete calls: a second patron with ID 1 is turned away and patron 1 keeps the
loan counter of 1; a patron with the new ID 3 is registered. -/
theorem registry_uniqueness_witness :
    sampleDesk.users.find 1 = some ann.borrowBook ∧
      sampleDesk.addUser (User.new 1 "eve" "x" UserType.LIBRARIAN)
        = (sampleDesk, [.error "User ID already exists."]) ∧
      (sampleDesk.addUser (User.new 3 "eve" "x" UserType.LIBRARIAN)).1.users.find 3
        = some (User.new 3 "eve" "x" UserType.LIBRARIAN) :=
  ⟨by decide,
    (registry_uniqueness sampleDesk).1 (User.new 1 "eve" "x" UserType.LIBRARIAN)
      ann.borrowBook (by decide),
    ((registry_uniqueness sampleDesk).2.1 (User.new 3 "eve" "x" UserType.LIBRARIAN)
      (by decide)).2.1⟩

/-! ## The borrow limit -/

theorem TierInv.of_userSet {st : LibraryManagementSystem} (h : TierInv st) (id : Int) (u : User)
    (hu : u.maxBorrow = (if u.type = UserType.REGULAR then 5 else 1000) ∧
      0 ≤ u.borrowedCount ∧ u.borrowedCount ≤ u.maxBorrow)
    (books : Map Book) (lm : LoanManagement) (rs : ReservationSystem) :
    TierInv { users := st.users.set id u, books := books, loanManagement := lm,
              reservationSystem := rs } := by
  intro k u' hf
  by_cases hk : id = k
  · subst hk
    simp only [Map.find_set_self, Option.some.injEq] at hf
    rw [← hf]
    exact hu
  · simp only [Map.find_set_ne _ _ hk] at hf
    exact h k u' hf

theorem TierInv.of_deskStep {st : LibraryManagementSystem} (h : TierInv st) (op : Op) :
    TierInv (st.step op).1 := by
  cases op with
  | addUser id uname pwd t =>
    simp only [LibraryManagementSystem.step, LibraryManagementSystem.addUser]
    split
    · exact h
    · refine TierInv.of_userSet h _ _ ?_ _ _ _
      cases t <;> simp [User.new]
  | addBook cls i t a c pd p =>
    simp only [LibraryManagementSystem.step, LibraryManagementSystem.addBook]
    split
    · exact h
    · exact h
  | borrowBook userId bookId now =>
    simp only [LibraryManagementSystem.step]
    cases hu : st.users.find userId with
    | none => simpa [LibraryManagementSystem.borrowBook, hu] using h
    | some user =>
    cases hb : st.books.find bookId with
    | none => simpa [LibraryManagementSystem.borrowBook, hu, hb] using h
    | some book =>
    cases hok : (st.loanManagement.loanBook bookId user book now).ok with
    | false =>
      rw [LibraryManagementSystem.desk_borrowBook_of_not_ok st now hu hb hok]
      exact h
    | true =>
      rw [LibraryManagementSystem.desk_borrowBook_of_ok st now hu hb hok]
      obtain ⟨-, -, h3⟩ := (loanBook_ok_iff _ _ _ _ _).1 hok
      have hlt : user.borrowedCount < user.maxBorrow := by
        simp only [User.canBorrow, Bool.and_eq_true, decide_eq_true_eq] at h3
        exact h3.1
      obtain ⟨hm, h0, -⟩ := h userId user hu
      refine TierInv.of_userSet h userId user.borrowBook ⟨hm, ?_, ?_⟩ _ _ _
      · show 0 ≤ user.borrowedCount + 1
        omega
      · show user.borrowedCount + 1 ≤ user.maxBorrow
        omega
  | returnBook userId bookId now =>
    simp only [LibraryManagementSystem.step]
    cases hu : st.users.find userId with
    | none => simpa [LibraryManagementSystem.returnBook, hu] using h
    | some user =>
    cases hb : st.books.find bookId with
    | none => simpa [LibraryManagementSystem.returnBook, hu, hb] using h
    | some book =>
    cases hok : (st.loanManagement.returnBook bookId user book now).ok with
    | false =>
      rw [LibraryManagementSystem.desk_returnBook_of_not_ok st now hu hb hok]
      exact h
    | true =>
      obtain ⟨record, hf, hr⟩ := (returnBook_ok_iff _ _ _ _ _).1 hok
      rw [LibraryManagementSystem.desk_returnBook_of_ok st now hu hb hf hr]
      obtain ⟨hm, h0, hle⟩ := h userId user hu
      generalize LoanManagement.calculateFine book record.borrowDate now = fine
      have h1 : ∀ u1 : User, u1.maxBorrow = user.maxBorrow → u1.type = user.type →
          u1.borrowedCount = user.borrowedCount →
          (u1.returnBook.maxBorrow = (if u1.returnBook.type = UserType.REGULAR then 5 else 1000) ∧
            0 ≤ u1.returnBook.borrowedCount ∧
            u1.returnBook.borrowedCount ≤ u1.returnBook.maxBorrow) := by
        intro u1 e1 e2 e3
        unfold User.returnBook
        split
        · refine ⟨by simpa [e1, e2] using hm, ?_, ?_⟩
          · show 0 ≤ u1.borrowedCount - 1
            omega
          · show u1.borrowedCount - 1 ≤ u1.maxBorrow
            omega
        · refine ⟨by simpa [e1, e2] using hm, by omega, by omega⟩
      refine TierInv.of_userSet h _ _ ?_ _ _ _
      split
      · exact h1 _ rfl rfl rfl
      · exact h1 _ rfl rfl rfl
  | reserveBook userId bookId =>
    simp only [LibraryManagementSystem.step, LibraryManagementSystem.reserveBook]
    split
    · exact h
    · split
      · exact h
      · exact h

theorem TierInv.of_deskRun {st : LibraryManagementSystem} (h : TierInv st) (ops : List Op) :
    TierInv (st.run ops) := by
  induction ops generalizing st with
  | nil => exact h
  | cons op ops ih => exact ih (h.of_deskStep op)

/-- C16. In every state reachable from the empty desk through `addUser`, `addBook`,
`borrowBook`, `returnBook` and `reserveBook`, the `borrowedCount` of every registered patron
lies between 0 and the maximum the constructor fixed for the patron's type: 5 for a standard
patron, 1000 for an extended one. -/
theorem borrow_limit (st : LibraryManagementSystem) (h : Reachable st) (id : Int) (u : User)
    (hu : st.users.find id = some u) :
    0 ≤ u.borrowedCount ∧ u.borrowedCount ≤ u.maxBorrow ∧
      (u.type = UserType.REGULAR → u.maxBorrow = 5 ∧ u.borrowedCount ≤ 5) ∧
      (u.type = UserType.LIBRARIAN → u.maxBorrow = 1000 ∧ u.borrowedCount ≤ 1000) := by
  obtain ⟨ops, rfl⟩ := h
  have hempty : TierInv LibraryManagementSystem.empty := by
    intro k u' hf
    simp [LibraryManagementSystem.empty, Map.find] at hf
  obtain ⟨hm, h0, hle⟩ := hempty.of_deskRun ops id u hu
  refine ⟨h0, hle, ?_, ?_⟩
  · intro ht
    simp only [ht, if_true] at hm
    exact ⟨hm, by omega⟩
  · intro ht
    simp only [ht] at hm
    have hm' : u.maxBorrow = 1000 := by simpa using hm
    exact ⟨hm', by omega⟩

/-- C16 on the sample desk: patron 1, a standard patron, holds one loan. -/
theorem borrow_limit_witness :
    Reachable sampleDesk ∧ sampleDesk.users.find 1 = some ann.borrowBook ∧
      0 ≤ ann.borrowBook.borrowedCount ∧ ann.borrowBook.borrowedCount ≤ 5 :=
  have h := borrow_limit sampleDesk ⟨sampleOps, rfl⟩ 1 ann.borrowBook (by decide)
  ⟨⟨sampleOps, rfl⟩, by decide, h.1, (h.2.2.1 (by decide)).2⟩

/-! ## Granularity of the fine -/

/-- The fine in closed form: the rate times the elapsed days, as a fraction, beyond 14. -/
theorem calculateFine_eq (book : Book) (t0 now : Int) :
    LoanManagement.calculateFine book t0 now
      = book.getFineRate * max 0 (((now - t0 : Int) : ℚ) / 86400 - 14) := by
  have hd : (((now - t0 : Int) : ℚ)) / (60 * 60 * 24) - 14
      = ((now - t0 : Int) : ℚ) / 86400 - 14 := by norm_num
  simp only [LoanManagement.calculateFine, hd]
  by_cases h : ((now - t0 : Int) : ℚ) / 86400 - 14 ≤ 0
  · simp only [h, if_true, max_eq_left h, mul_zero]
  · have h' : 0 ≤ ((now - t0 : Int) : ℚ) / 86400 - 14 := le_of_lt (not_le.1 h)
    simp only [h, if_false, max_eq_right h']
    ring

/-- C17 fails as stated: a rate-1.0 item borrowed at time 0 by a standard patron and returned
after 20 days and 12 hours has the same number of whole days elapsed as one returned after
exactly 20 days, but the patron is charged 13/2 = 6.5 instead of 6. -/
theorem half_day_changes_fine :
    (20 * 86400 + 43200 - 0 : Int) / 86400 = (20 * 86400 - 0 : Int) / 86400 ∧
      LoanManagement.calculateFine (novel.setAvailable false) 0 (20 * 86400) = 6 ∧
      LoanManagement.calculateFine (novel.setAvailable false) 0 (20 * 86400 + 43200) = 13 / 2 ∧
      (LoanManagement.returnBook ⟨[(8, ⟨8, 1, 0, 0⟩)]⟩ 8 ann.borrowBook
        (novel.setAvailable false) (20 * 86400)).user.fines = 6 ∧
      (LoanManagement.returnBook ⟨[(8, ⟨8, 1, 0, 0⟩)]⟩ 8 ann.borrowBook
        (novel.setAvailable false) (20 * 86400 + 43200)).user.fines = 13 / 2 := by
  have hr : (novel.setAvailable false).getFineRate = 1 := rfl
  have h20 : LoanManagement.calculateFine (novel.setAvailable false) 0 (20 * 86400) = 6 := by
    rw [calculateFine_eq, hr]
    norm_num
  have h205 : LoanManagement.calculateFine (novel.setAvailable false) 0 (20 * 86400 + 43200)
      = 13 / 2 := by
    rw [calculateFine_eq, hr]
    norm_num
  have hf : (⟨[(8, ⟨8, 1, 0, 0⟩)]⟩ : LoanManagement).activeLoans.find 8
      = some ⟨8, 1, 0, 0⟩ := by decide
  have hu : (⟨8, 1, 0, 0⟩ : LoanRecord).userId = ann.borrowBook.getUserId := by decide
  have h0 : ann.borrowBook.fines = 0 := rfl
  refine ⟨by decide, h20, h205, ?_, ?_⟩
  · rw [returnBook_fines _ _ _ _ _ _ hf hu, h0]
    show (0 : ℚ) + LoanManagement.calculateFine (novel.setAvailable false) 0 (20 * 86400) = 6
    rw [h20]
    norm_num
  · rw [returnBook_fines _ _ _ _ _ _ hf hu, h0]
    show (0 : ℚ) + LoanManagement.calculateFine (novel.setAvailable false) 0
      (20 * 86400 + 43200) = 13 / 2
    rw [h205]
    norm_num

/-! ## Return and notification -/

theorem notifyNextUser_queue (rs : ReservationSystem) (bookId : Int) :
    (rs.notifyNextUser bookId).1.queue bookId = (rs.queue bookId).tail := by
  unfold ReservationSystem.notifyNextUser ReservationSystem.queue
  cases hf : rs.reservations.find bookId with
  | none => simp [hf]
  | some q =>
    cases q with
    | nil => simp [hf]
    | cons head rest => simp [Map.find_set_self]

theorem notifyNextUser_find_ne (rs : ReservationSystem) {bookId other : Int}
    (hne : other ≠ bookId) :
    (rs.notifyNextUser bookId).1.reservations.find other = rs.reservations.find other := by
  unfold ReservationSystem.notifyNextUser
  split
  · rfl
  · rfl
  · exact Map.find_set_ne _ _ (fun h => hne h.symm)

theorem desk_returnBook_reservations (st : LibraryManagementSystem) (userId bookId now : Int) :
    (st.returnBook userId bookId now).1.reservationSystem
      = if st.settles userId bookId now then (st.reservationSystem.notifyNextUser bookId).1
        else st.reservationSystem := by
  unfold LibraryManagementSystem.returnBook LibraryManagementSystem.settles
  cases hu : st.users.find userId with
  | none => simp
  | some user =>
    cases hb : st.books.find bookId with
    | none => simp
    | some book =>
      cases hok : (st.loanManagement.returnBook bookId user book now).ok <;> simp [hok]

/-- C18. The desk's `returnBook` passes the item's queue through `notifyNextUser`, which
removes its head when it is non-empty, exactly when both IDs are registered and the ledger's
`returnBook` succeeds.  When an ID is unknown or the ledger refuses the return, the
reservation system is unchanged.  The queues of all other items are unchanged in every
case. -/
theorem return_notifies_only_on_success (st : LibraryManagementSystem)
    (userId bookId now : Int) :
    (st.users.find userId = none → st.settles userId bookId now = false) ∧
    (st.books.find bookId = none → st.settles userId bookId now = false) ∧
    (∀ user book, st.users.find userId = some user → st.books.find bookId = some book →
      st.settles userId bookId now = (st.loanManagement.returnBook bookId user book now).ok) ∧
    (st.settles userId bookId now = true →
      (st.returnBook userId bookId now).1.reservationSystem
          = (st.reservationSystem.notifyNextUser bookId).1 ∧
        (st.returnBook userId bookId now).1.reservationSystem.queue bookId
          = (st.reservationSystem.queue bookId).tail) ∧
    (st.settles userId bookId now = false →
      (st.returnBook userId bookId now).1.reservationSystem = st.reservationSystem) ∧
    (st.reservationSystem.queue bookId ≠ [] →
      ((st.returnBook userId bookId now).1.reservationSystem.queue bookId
          = (st.reservationSystem.queue bookId).tail ↔
        st.settles userId bookId now = true)) ∧
    (∀ other, other ≠ bookId →
      (st.returnBook userId bookId now).1.reservationSystem.reservations.find other
        = st.reservationSystem.reservations.find other) := by
  have hrs := desk_returnBook_reservations st userId bookId now
  refine ⟨?_, ?_, ?_, ?_, ?_, ?_, ?_⟩
  · intro hu
    simp [LibraryManagementSystem.settles, hu]
  · intro hb
    unfold LibraryManagementSystem.settles
    cases st.users.find userId <;> simp [hb]
  · intro user book hu hb
    simp [LibraryManagementSystem.settles, hu, hb]
  · intro hs
    rw [hrs, hs]
    exact ⟨rfl, notifyNextUser_queue _ _⟩
  · intro hs
    rw [hrs, hs]
    rfl
  · intro hne
    rw [hrs]
    cases hs : st.settles userId bookId now with
    | true => simp [notifyNextUser_queue]
    | false =>
      simp only [Bool.false_eq_true, if_false, iff_false]
      intro heq
      have := congrArg List.length heq
      rw [List.length_tail] at this
      have hpos : 0 < (st.reservationSystem.queue bookId).length :=
        List.length_pos.2 hne
      omega
  · intro other hne
    rw [hrs]
    split
    · exact notifyNextUser_find_ne _ hne
    · rfl

/-- C18 on the desk where patron 1 holds item 7 and patron 2 waits for it: the return by
patron 1 empties the queue, the refused return by patron 2 leaves the reservations alone. -/
theorem return_notifies_only_on_success_witness :
    reservedDesk.reservationSystem.queue 7 = [2] ∧
      reservedDesk.settles 1 7 86400 = true ∧
      (reservedDesk.returnBook 1 7 86400).1.reservationSystem.queue 7 = [] ∧
      reservedDesk.settles 2 7 86400 = false ∧
      (reservedDesk.returnBook 2 7 86400).1.reservationSystem
        = reservedDesk.reservationSystem :=
  ⟨by decide, by decide,
    ((return_notifies_only_on_success reservedDesk 1 7 86400).2.2.2.1 (by decide)).2.trans
      (by decide),
    by decide,
    (return_notifies_only_on_success reservedDesk 2 7 86400).2.2.2.2.1 (by decide)⟩

/-! ## Lending does not look at reservations -/

/-- C19. Two desk states that agree on the patron registry, the item registry and the ledger,
whatever their reservation queues, answer a `borrowBook` request at the same time with the
same output, hence the same success or failure, and with the same registries and ledger
afterwards; and each keeps its own reservation queues unchanged. -/
theorem reservations_do_not_influence_lending (st1 st2 : LibraryManagementSystem)
    (userId bookId now : Int)
    (husers : st1.users = st2.users) (hbooks : st1.books = st2.books)
    (hledger : st1.loanManagement = st2.loanManagement) :
    (st1.borrowBook userId bookId now).2 = (st2.borrowBook userId bookId now).2 ∧
      (st1.borrowBook userId bookId now).1.users = (st2.borrowBook userId bookId now).1.users ∧
      (st1.borrowBook userId bookId now).1.books = (st2.borrowBook userId bookId now).1.books ∧
      (st1.borrowBook userId bookId now).1.loanManagement
        = (st2.borrowBook userId bookId now).1.loanManagement ∧
      (st1.borrowBook userId bookId now).1.reservationSystem = st1.reservationSystem ∧
      (st2.borrowBook userId bookId now).1.reservationSystem = st2.reservationSystem := by
  have hres : ∀ st : LibraryManagementSystem,
      (st.borrowBook userId bookId now).1.reservationSystem = st.reservationSystem := by
    intro st
    unfold LibraryManagementSystem.borrowBook
    cases st.users.find userId with
    | none => rfl
    | some user =>
      cases st.books.find bookId with
      | none => rfl
      | some book => rfl
  refine ⟨?_, ?_, ?_, ?_, hres st1, hres st2⟩
  all_goals
    unfold LibraryManagementSystem.borrowBook
    rw [husers, hbooks, hledger]
    cases st2.users.find userId with
    | none => simp [husers, hbooks, hledger]
    | some user =>
      cases st2.books.find bookId with
      | none => simp [husers, hbooks, hledger]
      | some book => rfl

/-- C19 on two desks that differ only in their reservations: patron 2 asks both for item 8
and gets the same output and the same ledger. -/
theorem reservations_do_not_influence_lending_witness :
    sampleDesk.reservationSystem ≠ reservedDesk.reservationSystem ∧
      (sampleDesk.borrowBook 2 8 5).2 = (reservedDesk.borrowBook 2 8 5).2 ∧
      (sampleDesk.borrowBook 2 8 5).1.loanManagement
        = (reservedDesk.borrowBook 2 8 5).1.loanManagement ∧
      (reservedDesk.borrowBook 2 8 5).1.reservationSystem = reservedDesk.reservationSystem :=
  have h := reservations_do_not_influence_lending sampleDesk reservedDesk 2 8 5
    (by decide) (by decide) (by decide)
  ⟨by decide, h.1, h.2.2.2.1, h.2.2.2.2.2⟩

/-! ## Fines through the desk -/

theorem User.returnBook_fines_eq (u : User) : u.returnBook.fines = u.fines := by
  unfold User.returnBook
  split <;> rfl

theorem roundHalfEven_intCast (n : Int) : roundHalfEven (n : ℚ) = n := by
  simp [roundHalfEven]

theorem le_roundHalfEven (y : ℚ) (n : Int) (h : (n : ℚ) ≤ y) : n ≤ roundHalfEven y := by
  have hf : n ≤ Int.floor y := Int.le_floor.2 h
  unfold roundHalfEven
  split
  · exact hf
  · split
    · omega
    · split <;> omega

theorem roundHalfEven_le (y : ℚ) (n : Int) (h : y ≤ (n : ℚ)) : roundHalfEven y ≤ n := by
  have hfl : (Int.floor y : ℚ) ≤ y := Int.floor_le y
  by_cases hy : y = (n : ℚ)
  · rw [hy, roundHalfEven_intCast]
  · have hlt : y < (n : ℚ) := lt_of_le_of_ne h hy
    have hf : Int.floor y < n := Int.floor_lt.2 hlt
    unfold roundHalfEven
    split
    · omega
    · split
      · omega
      · split <;> omega

theorem roundHalfEven_eq_of_abs_lt (y : ℚ) (n : Int) (h : |y - (n : ℚ)| < 1 / 2) :
    roundHalfEven y = n := by
  rw [abs_lt] at h
  obtain ⟨h1, h2⟩ := h
  by_cases hn : (n : ℚ) ≤ y
  · have hf : Int.floor y = n := by
      rw [Int.floor_eq_iff]
      constructor
      · exact hn
      · linarith
    unfold roundHalfEven
    rw [hf]
    rw [if_pos h2]
  · have hlt : y < (n : ℚ) := not_le.1 hn
    have hf : Int.floor y = n - 1 := by
      rw [Int.floor_eq_iff]
      push_cast
      constructor
      · linarith
      · linarith
    unfold roundHalfEven
    rw [hf]
    push_cast
    have h3 : ¬ (y - ((n : ℚ) - 1) < 1 / 2) := by
      intro hc
      linarith
    have h4 : 1 / 2 < y - ((n : ℚ) - 1) := by linarith
    simp only [h3, h4, if_false, if_true]
    omega

theorem two_zpow_pos (k : Int) : (0 : ℚ) < 2 ^ k := zpow_pos (by norm_num) k

theorem log_two_eq (x : ℚ) (e : Int) (h1 : (2 : ℚ) ^ e ≤ |x|) (h2 : |x| < 2 ^ (e + 1)) :
    Int.log 2 |x| = e := by
  have hpos : 0 < |x| := lt_of_lt_of_le (two_zpow_pos e) h1
  have ha : e ≤ Int.log 2 |x| := (Int.zpow_le_iff_le_log (by norm_num) hpos).1 (by exact_mod_cast h1)
  have hb : Int.log 2 |x| < e + 1 := (Int.lt_zpow_iff_log_lt (by norm_num) hpos).1 (by exact_mod_cast h2)
  omega

theorem two_zpow_toNat (d : Int) (hd : 0 ≤ d) : (2 : ℚ) ^ d = (((2 : Int) ^ d.toNat : Int) : ℚ) := by
  have h : d = (d.toNat : Int) := (Int.toNat_of_nonneg hd).symm
  conv_lhs => rw [h]
  rw [zpow_natCast]
  push_cast
  rfl

theorem two_zpow_split (k u : Int) : (2 : ℚ) ^ k = 2 ^ (k - u) * 2 ^ u := by
  rw [← zpow_add₀ (by norm_num : (2 : ℚ) ≠ 0)]
  congr 1
  omega

theorem roundDouble_zero : roundDouble 0 = 0 := by
  simp [roundDouble, roundHalfEven]

theorem ulpExp_eq (x : ℚ) (e : Int) (h1 : (2 : ℚ) ^ e ≤ |x|) (h2 : |x| < 2 ^ (e + 1))
    (hmin : -1022 ≤ e) : ulpExp x = e - 52 := by
  unfold ulpExp
  rw [log_two_eq x e h1 h2, max_eq_left hmin]

theorem ulpExp_le_of_lt (x : ℚ) (b : Int) (hx : 0 < |x|) (h2 : |x| < 2 ^ b) (hmin : -1022 < b) :
    ulpExp x ≤ b - 53 := by
  have hb : Int.log 2 |x| < b :=
    (Int.lt_zpow_iff_log_lt (by norm_num) hx).1 (by exact_mod_cast h2)
  unfold ulpExp
  have : max (Int.log 2 |x|) (-1022) ≤ b - 1 := max_le (by omega) (by omega)
  omega

/-- A rational `m * 2 ^ k` with `|m| < 2 ^ 53` and `k ≥ -1074` is a `double`: rounding leaves
it as it is. -/
theorem roundDouble_of_dyadic (m k : Int) (hm : |m| < 2 ^ 53) (hk : -1074 ≤ k) :
    roundDouble ((m : ℚ) * 2 ^ k) = (m : ℚ) * 2 ^ k := by
  by_cases h0 : m = 0
  · subst h0
    simp [roundDouble_zero]
  · have hmq : (0 : ℚ) < |(m : ℚ)| := abs_pos.2 (by exact_mod_cast h0)
    have habs : |(m : ℚ) * 2 ^ k| = |(m : ℚ)| * 2 ^ k := by
      rw [abs_mul, abs_of_pos (two_zpow_pos k)]
    have hxpos : 0 < |(m : ℚ) * 2 ^ k| := by
      rw [habs]
      exact mul_pos hmq (two_zpow_pos k)
    have hlt : |(m : ℚ) * 2 ^ k| < 2 ^ (53 + k) := by
      rw [habs, zpow_add₀ (by norm_num : (2 : ℚ) ≠ 0)]
      apply mul_lt_mul_of_pos_right _ (two_zpow_pos k)
      have h1 : ((|m| : Int) : ℚ) < (((2 : Int) ^ 53 : Int) : ℚ) := Int.cast_lt.2 hm
      rw [Int.cast_abs] at h1
      norm_num at h1 ⊢
      exact h1
    have hu : ulpExp ((m : ℚ) * 2 ^ k) ≤ k := by
      have := ulpExp_le_of_lt _ (53 + k) hxpos hlt (by omega)
      omega
    unfold roundDouble
    generalize ulpExp ((m : ℚ) * 2 ^ k) = u at hu
    have hq : (m : ℚ) * 2 ^ k / 2 ^ u = ((m * 2 ^ (k - u).toNat : Int) : ℚ) := by
      rw [two_zpow_split k u, ← mul_assoc, mul_div_assoc,
        div_self (ne_of_gt (two_zpow_pos u)), mul_one, two_zpow_toNat (k - u) (by omega)]
      push_cast
      rfl
    rw [hq, roundHalfEven_intCast]
    rw [two_zpow_split k u, ← mul_assoc, two_zpow_toNat (k - u) (by omega)]
    push_cast
    rfl

theorem roundDouble_intCast (n : Int) (h : |n| < 2 ^ 53) : roundDouble (n : ℚ) = n := by
  have := roundDouble_of_dyadic n 0 h (by norm_num)
  simpa using this

/-- Evaluate a rounding: the binade and the nearest multiple of the last place are given. -/
theorem roundDouble_eval (x : ℚ) (e n : Int) (h1 : (2 : ℚ) ^ e ≤ |x|) (h2 : |x| < 2 ^ (e + 1))
    (hmin : -1022 ≤ e) (hn : |x / 2 ^ (e - 52) - (n : ℚ)| < 1 / 2) :
    roundDouble x = (n : ℚ) * 2 ^ (e - 52) := by
  unfold roundDouble
  rw [ulpExp_eq x e h1 h2 hmin, roundHalfEven_eq_of_abs_lt _ n hn]

theorem roundDouble_nonpos (y : ℚ) (h : y ≤ 0) : roundDouble y ≤ 0 := by
  unfold roundDouble
  have hq : y / 2 ^ ulpExp y ≤ ((0 : Int) : ℚ) := by
    simpa using div_nonpos_of_nonpos_of_nonneg h (le_of_lt (two_zpow_pos _))
  have := roundHalfEven_le _ 0 hq
  have h' : (roundHalfEven (y / 2 ^ ulpExp y) : ℚ) ≤ 0 := by exact_mod_cast this
  exact mul_nonpos_of_nonpos_of_nonneg h' (le_of_lt (two_zpow_pos _))

theorem roundDouble_nonneg (y : ℚ) (h : 0 ≤ y) : 0 ≤ roundDouble y := by
  unfold roundDouble
  have hq : ((0 : Int) : ℚ) ≤ y / 2 ^ ulpExp y := by
    simpa using div_nonneg h (le_of_lt (two_zpow_pos _))
  have := le_roundHalfEven _ 0 hq
  have h' : (0 : ℚ) ≤ (roundHalfEven (y / 2 ^ ulpExp y) : ℚ) := by exact_mod_cast this
  exact mul_nonneg h' (le_of_lt (two_zpow_pos _))

/-- Rounding does not cross a `double` from below: the last place of `z` is at least that
of `y`. -/
theorem roundDouble_le (y z : ℚ) (N k : Int) (hz : z = (N : ℚ) * 2 ^ k) (hk : ulpExp y ≤ k)
    (hyz : y ≤ z) : roundDouble y ≤ z := by
  unfold roundDouble
  generalize ulpExp y = u at hk
  have hzq : z = ((N * 2 ^ (k - u).toNat : Int) : ℚ) * 2 ^ u := by
    rw [hz, two_zpow_split k u, ← mul_assoc, two_zpow_toNat (k - u) (by omega)]
    push_cast
    rfl
  have hq : y / 2 ^ u ≤ ((N * 2 ^ (k - u).toNat : Int) : ℚ) := by
    rw [div_le_iff₀ (two_zpow_pos u), ← hzq]
    exact hyz
  have := roundHalfEven_le _ _ hq
  have h' : (roundHalfEven (y / 2 ^ u) : ℚ) ≤ ((N * 2 ^ (k - u).toNat : Int) : ℚ) := by
    exact_mod_cast this
  rw [hzq]
  exact mul_le_mul_of_nonneg_right h' (le_of_lt (two_zpow_pos u))

/-- Rounding does not cross a normal positive `double` from above. -/
theorem le_roundDouble (y z : ℚ) (N e : Int) (hmin : -1022 ≤ e)
    (hz : z = (N : ℚ) * 2 ^ (e - 52)) (hlo : (2 : ℚ) ^ e ≤ z) (hhi : z < 2 ^ (e + 1))
    (hzy : z ≤ y) : z ≤ roundDouble y := by
  have hzpos : 0 < z := lt_of_lt_of_le (two_zpow_pos e) hlo
  have hypos : 0 < y := lt_of_lt_of_le hzpos hzy
  have hyabs : |y| = y := abs_of_pos hypos
  have hlog1 : (2 : ℚ) ^ Int.log 2 |y| ≤ |y| := by
    have := Int.zpow_log_le_self (b := 2) (r := |y|) (by norm_num) (by rw [hyabs]; exact hypos)
    exact_mod_cast this
  have hlog2 : |y| < (2 : ℚ) ^ (Int.log 2 |y| + 1) := by
    have := Int.lt_zpow_succ_log_self (b := 2) (by norm_num) |y|
    exact_mod_cast this
  have hle : e ≤ Int.log 2 |y| := by
    apply (Int.zpow_le_iff_le_log (by norm_num) (by rw [hyabs]; exact hypos)).1
    rw [hyabs]
    exact_mod_cast le_trans hlo hzy
  have hu : ulpExp y = Int.log 2 |y| - 52 := by
    unfold ulpExp
    rw [max_eq_left (by omega)]
  unfold roundDouble
  rw [hu]
  generalize Int.log 2 |y| = ey at hlog1 hlog2 hle
  rw [hyabs] at hlog1 hlog2
  rcases lt_or_eq_of_le hle with hlt | heq
  · -- a higher binade: the rounded value is at least `2 ^ ey`
    have hq : (((2 : Int) ^ 52 : Int) : ℚ) ≤ y / 2 ^ (ey - 52) := by
      rw [le_div_iff₀ (two_zpow_pos _)]
      have : (((2 : Int) ^ 52 : Int) : ℚ) * 2 ^ (ey - 52) = 2 ^ ey := by
        have h52 : (((2 : Int) ^ 52 : Int) : ℚ) = (2 : ℚ) ^ (52 : Int) := by norm_num
        rw [h52, ← zpow_add₀ (by norm_num : (2 : ℚ) ≠ 0)]
        congr 1
        omega
      rw [this]
      exact hlog1
    have := le_roundHalfEven _ _ hq
    have h' : (((2 : Int) ^ 52 : Int) : ℚ) ≤ (roundHalfEven (y / 2 ^ (ey - 52)) : ℚ) := by
      exact_mod_cast this
    have hbig : (2 : ℚ) ^ ey ≤ (roundHalfEven (y / 2 ^ (ey - 52)) : ℚ) * 2 ^ (ey - 52) := by
      have h52 : (((2 : Int) ^ 52 : Int) : ℚ) = (2 : ℚ) ^ (52 : Int) := by norm_num
      calc (2 : ℚ) ^ ey = (((2 : Int) ^ 52 : Int) : ℚ) * 2 ^ (ey - 52) := by
              rw [h52, ← zpow_add₀ (by norm_num : (2 : ℚ) ≠ 0)]
              congr 1
              omega
        _ ≤ _ := mul_le_mul_of_nonneg_right h' (le_of_lt (two_zpow_pos _))
    have hstep : (2 : ℚ) ^ (e + 1) ≤ 2 ^ ey :=
      zpow_le_zpow_right₀ (by norm_num) (by omega)
    linarith
  · subst heq
    have hq : (N : ℚ) ≤ y / 2 ^ (e - 52) := by
      rw [le_div_iff₀ (two_zpow_pos _), ← hz]
      exact hzy
    have := le_roundHalfEven _ _ hq
    have h' : (N : ℚ) ≤ (roundHalfEven (y / 2 ^ (e - 52)) : ℚ) := by exact_mod_cast this
    rw [hz]
    exact mul_le_mul_of_nonneg_right h' (le_of_lt (two_zpow_pos _))

theorem roundHalfEven_tie_even (n : Int) (h : n % 2 = 0) :
    roundHalfEven ((n : ℚ) + 1 / 2) = n := by
  have hf : Int.floor ((n : ℚ) + 1 / 2) = n := by
    rw [Int.floor_eq_iff]
    constructor <;> linarith
  unfold roundHalfEven
  rw [hf]
  have h1 : ¬ ((n : ℚ) + 1 / 2 - (n : ℚ) < 1 / 2) := by
    intro hc
    linarith
  have h2 : ¬ (1 / 2 < (n : ℚ) + 1 / 2 - (n : ℚ)) := by
    intro hc
    linarith
  rw [if_neg h1, if_neg h2, if_pos h]

/-- Evaluate a rounding that falls on a tie: the even neighbour is taken. -/
theorem roundDouble_eval_tie (x : ℚ) (e n : Int) (h1 : (2 : ℚ) ^ e ≤ |x|)
    (h2 : |x| < 2 ^ (e + 1)) (hmin : -1022 ≤ e) (hx : x / 2 ^ (e - 52) = (n : ℚ) + 1 / 2)
    (heven : n % 2 = 0) : roundDouble x = (n : ℚ) * 2 ^ (e - 52) := by
  unfold roundDouble
  rw [ulpExp_eq x e h1 h2 hmin, hx, roundHalfEven_tie_even n heven]

/-! ## Fines in binary64 -/

theorem roundDouble_one : roundDouble 1 = 1 := by
  have := roundDouble_intCast 1 (by norm_num)
  simpa using this

theorem roundDouble_half : roundDouble (1 / 2) = 1 / 2 := by
  have := roundDouble_of_dyadic 1 (-1) (by norm_num) (by norm_num)
  norm_num at this
  simpa using this

/-- The literal `0.7` denotes the `double` 3152519739159347 / 2 ^ 52. -/
theorem roundDouble_seven_tenths : roundDouble (7 / 10) = sevenTenths := by
  rw [roundDouble_eval (7 / 10) (-1) 6305039478318694 (by norm_num [abs_of_pos])
    (by norm_num [abs_of_pos]) (by norm_num) (by norm_num [abs_lt])]
  norm_num [sevenTenths]

theorem getFineRateDouble_eq (book : Book) :
    book.getFineRateDouble =
      match book.cls with
      | .Book => 1
      | .TextBook _ _ => 1 / 2
      | .Magazine _ => sevenTenths
      | .ReferenceBook => 0 := by
  unfold Book.getFineRateDouble
  split
  · exact roundDouble_one
  · exact roundDouble_half
  · exact roundDouble_seven_tenths
  · exact roundDouble_zero

theorem getFineRateDouble_of_not_magazine (book : Book)
    (h : ∀ issue, book.cls ≠ BookClass.Magazine issue) :
    book.getFineRateDouble = book.getFineRate := by
  rw [getFineRateDouble_eq]
  unfold Book.getFineRate
  split
  · rfl
  · rfl
  · rename_i issue hcls
    exact absurd hcls (h issue)
  · rfl

theorem returnBookDouble_ok_iff (lm : LoanManagement) (bookId : Int) (user : User)
    (book : Book) (now : Int) :
    (lm.returnBookDouble bookId user book now).ok = true ↔
      ∃ record, lm.activeLoans.find bookId = some record ∧ record.userId = user.getUserId := by
  unfold LoanManagement.returnBookDouble
  cases hf : lm.activeLoans.find bookId with
  | none => simp
  | some record =>
    by_cases hu : record.userId = user.getUserId <;> simp [hu]

/-- The balance after a successful `returnBookDouble`: the rounded sum of the old balance
and the fine when the fine is positive, the old balance otherwise. -/
theorem returnBookDouble_fines (lm : LoanManagement) (bookId : Int) (user : User)
    (book : Book) (now : Int) (record : LoanRecord)
    (hf : lm.activeLoans.find bookId = some record) (hu : record.userId = user.getUserId) :
    (lm.returnBookDouble bookId user book now).user.fines
      = if LoanManagement.calculateFineDouble book record.borrowDate now > 0
        then roundDouble
          (user.fines + LoanManagement.calculateFineDouble book record.borrowDate now)
        else user.fines := by
  simp only [LoanManagement.returnBookDouble, hf, hu, ne_eq, not_true_eq_false, if_false]
  rw [User.returnBook_fines_eq]
  split <;> rfl

/-- A return after `d` whole days in binary64: the seconds, the quotient and the difference
are exact, and only the product with the rate is rounded. -/
theorem calculateFineDouble_whole_days (book : Book) (t0 d : Int)
    (hd : |d * 86400| < 2 ^ 53) :
    LoanManagement.calculateFineDouble book t0 (t0 + d * 86400)
      = roundDouble (book.getFineRateDouble * max 0 ((d : ℚ) - 14)) := by
  have hd' : |d| < 2 ^ 52 := by
    rw [abs_mul] at hd
    have : |d| * 86400 < 2 ^ 53 := by simpa using hd
    omega
  have hsec : roundDouble (((t0 + d * 86400 - t0 : Int) : ℚ)) = ((d * 86400 : Int) : ℚ) := by
    have e : t0 + d * 86400 - t0 = d * 86400 := by omega
    rw [e]
    exact roundDouble_intCast _ hd
  have hquot : roundDouble (((d * 86400 : Int) : ℚ) / (60 * 60 * 24)) = (d : ℚ) := by
    have e : ((d * 86400 : Int) : ℚ) / (60 * 60 * 24) = (d : ℚ) := by
      push_cast
      ring
    rw [e]
    exact roundDouble_intCast d (by omega)
  have hdiff : roundDouble ((d : ℚ) - 14) = (d : ℚ) - 14 := by
    have h14 : |d - 14| < 2 ^ 53 := by
      have := abs_sub d 14
      have h14' : |(14 : Int)| = 14 := by norm_num
      omega
    have := roundDouble_intCast (d - 14) h14
    push_cast at this
    exact this
  simp only [LoanManagement.calculateFineDouble, hsec, hquot, hdiff]
  by_cases h : (d : ℚ) - 14 ≤ 0
  · simp only [h, if_true, max_eq_left h, mul_zero, roundDouble_zero]
  · have h' : 0 ≤ (d : ℚ) - 14 := le_of_lt (not_le.1 h)
    simp only [h, if_false, max_eq_right h']
    rw [mul_comm]

theorem calculateFineDouble_weekly_20_days :
    LoanManagement.calculateFineDouble weekly 0 (20 * 86400)
      = 1182194902184755 / 281474976710656 := by
  have h := calculateFineDouble_whole_days weekly 0 20 (by norm_num)
  have e : (0 : Int) + 20 * 86400 = 20 * 86400 := by norm_num
  rw [e] at h
  rw [h, getFineRateDouble_eq]
  show roundDouble (sevenTenths * max 0 (((20 : Int) : ℚ) - 14)) = _
  have hx : sevenTenths * max 0 (((20 : Int) : ℚ) - 14)
      = 9457559217478041 / 2251799813685248 := by
    norm_num [sevenTenths]
  rw [hx, roundDouble_eval_tie _ 2 4728779608739020 (by norm_num [abs_of_pos])
    (by norm_num [abs_of_pos]) (by norm_num) (by norm_num) (by norm_num)]
  norm_num

theorem calculateFineDouble_weekly_16_days :
    LoanManagement.calculateFineDouble weekly 0 (16 * 86400) = 2 * sevenTenths := by
  have h := calculateFineDouble_whole_days weekly 0 16 (by norm_num)
  have e : (0 : Int) + 16 * 86400 = 16 * 86400 := by norm_num
  rw [e] at h
  rw [h, getFineRateDouble_eq]
  show roundDouble (sevenTenths * max 0 (((16 : Int) : ℚ) - 14)) = _
  have hx : sevenTenths * max 0 (((16 : Int) : ℚ) - 14)
      = ((3152519739159347 : Int) : ℚ) * 2 ^ (-51 : Int) := by
    norm_num [sevenTenths]
  rw [hx, roundDouble_of_dyadic _ _ (by norm_num) (by norm_num)]
  norm_num [sevenTenths]

/-- C4 fails as stated, by the rounding of `double`.  A `Magazine` (rate 0.7) returned by a
standard patron 20 days after it was borrowed is charged 1182194902184755 / 2 ^ 48, printed
4.199999999999999, which is neither `0.7 * 6` nor the product of the `double` 0.7 with 6.
A `Magazine` returned after 15 days leaves a balance of 0.7; when that patron is then
charged 1.4 for a `Magazine` returned after 16 days, the balance becomes
1182194902184755 / 2 ^ 49, printed 2.0999999999999996: it has not grown by the fine. -/
theorem magazine_fine_is_rounded :
    annOwing.getBorrowDays = 14 ∧
      LoanManagement.calculateFineDouble weekly 0 (20 * 86400)
        = 1182194902184755 / 281474976710656 ∧
      LoanManagement.calculateFineDouble weekly 0 (20 * 86400)
        ≠ 7 / 10 * max 0 (((20 : Int) : ℚ) - 14) ∧
      LoanManagement.calculateFineDouble weekly 0 (20 * 86400)
        ≠ weekly.getFineRateDouble * max 0 (((20 : Int) : ℚ) - 14) ∧
      (LoanManagement.returnBookDouble ⟨[(6, ⟨6, 1, 0, 0⟩)]⟩ 6 ann.borrowBook weekly
        (15 * 86400)).user.fines = annOwing.fines ∧
      (LoanManagement.returnBookDouble ⟨[(6, ⟨6, 1, 0, 0⟩)]⟩ 6 annOwing weekly
        (16 * 86400)).ok = true ∧
      (LoanManagement.returnBookDouble ⟨[(6, ⟨6, 1, 0, 0⟩)]⟩ 6 annOwing weekly
        (16 * 86400)).user.fines = 1182194902184755 / 562949953421312 ∧
      (LoanManagement.returnBookDouble ⟨[(6, ⟨6, 1, 0, 0⟩)]⟩ 6 annOwing weekly
        (16 * 86400)).user.fines - annOwing.fines
        ≠ LoanManagement.calculateFineDouble weekly 0 (16 * 86400) := by
  have hf : (⟨[(6, ⟨6, 1, 0, 0⟩)]⟩ : LoanManagement).activeLoans.find 6
      = some ⟨6, 1, 0, 0⟩ := by decide
  have hu : (⟨6, 1, 0, 0⟩ : LoanRecord).userId = annOwing.getUserId := by decide
  have hbal : (LoanManagement.returnBookDouble ⟨[(6, ⟨6, 1, 0, 0⟩)]⟩ 6 annOwing weekly
      (16 * 86400)).user.fines = 1182194902184755 / 562949953421312 := by
    rw [returnBookDouble_fines _ _ _ _ _ _ hf hu]
    show (if LoanManagement.calculateFineDouble weekly 0 (16 * 86400) > 0
      then roundDouble (sevenTenths + LoanManagement.calculateFineDouble weekly 0 (16 * 86400))
      else sevenTenths) = _
    rw [calculateFineDouble_weekly_16_days]
    have hpos : 2 * sevenTenths > 0 := by norm_num [sevenTenths]
    rw [if_pos hpos]
    have hx : sevenTenths + 2 * sevenTenths = 9457559217478041 / 4503599627370496 := by
      norm_num [sevenTenths]
    rw [hx, roundDouble_eval_tie _ 1 4728779608739020 (by norm_num [abs_of_pos])
      (by norm_num [abs_of_pos]) (by norm_num) (by norm_num) (by norm_num)]
    norm_num
  have hfirst : (LoanManagement.returnBookDouble ⟨[(6, ⟨6, 1, 0, 0⟩)]⟩ 6 ann.borrowBook weekly
      (15 * 86400)).user.fines = annOwing.fines := by
    have hu0 : (⟨6, 1, 0, 0⟩ : LoanRecord).userId = ann.borrowBook.getUserId := by decide
    have h15 : LoanManagement.calculateFineDouble weekly 0 (15 * 86400) = sevenTenths := by
      have h := calculateFineDouble_whole_days weekly 0 15 (by norm_num)
      have e : (0 : Int) + 15 * 86400 = 15 * 86400 := by norm_num
      rw [e] at h
      rw [h, getFineRateDouble_eq]
      show roundDouble (sevenTenths * max 0 (((15 : Int) : ℚ) - 14)) = _
      have hx : sevenTenths * max 0 (((15 : Int) : ℚ) - 14)
          = ((3152519739159347 : Int) : ℚ) * 2 ^ (-52 : Int) := by
        norm_num [sevenTenths]
      rw [hx, roundDouble_of_dyadic _ _ (by norm_num) (by norm_num)]
      norm_num [sevenTenths]
    rw [returnBookDouble_fines _ _ _ _ _ _ hf hu0]
    show (if LoanManagement.calculateFineDouble weekly 0 (15 * 86400) > 0
      then roundDouble (0 + LoanManagement.calculateFineDouble weekly 0 (15 * 86400))
      else 0) = sevenTenths
    rw [h15]
    have hpos : sevenTenths > 0 := by norm_num [sevenTenths]
    rw [if_pos hpos]
    have hx : (0 : ℚ) + sevenTenths
        = ((3152519739159347 : Int) : ℚ) * 2 ^ (-52 : Int) := by
      norm_num [sevenTenths]
    rw [hx, roundDouble_of_dyadic _ _ (by norm_num) (by norm_num)]
    norm_num [sevenTenths]
  refine ⟨by decide, calculateFineDouble_weekly_20_days, ?_, ?_, hfirst,
    (returnBookDouble_ok_iff _ _ _ _ _).2 ⟨_, hf, hu⟩, hbal, ?_⟩
  · rw [calculateFineDouble_weekly_20_days]
    norm_num
  · rw [calculateFineDouble_weekly_20_days, getFineRateDouble_eq]
    show (1182194902184755 / 281474976710656 : ℚ) ≠ sevenTenths * max 0 (((20 : Int) : ℚ) - 14)
    norm_num [sevenTenths]
  · rw [hbal, calculateFineDouble_weekly_16_days]
    show (1182194902184755 / 562949953421312 : ℚ) - sevenTenths ≠ 2 * sevenTenths
    norm_num [sevenTenths]

theorem getFineRateDouble_nonneg (book : Book) : 0 ≤ book.getFineRateDouble := by
  rw [getFineRateDouble_eq]
  split <;> norm_num [sevenTenths]

theorem calculateFineDouble_nonneg (book : Book) (t0 now : Int) :
    0 ≤ LoanManagement.calculateFineDouble book t0 now := by
  unfold LoanManagement.calculateFineDouble
  simp only
  split
  · exact le_refl 0
  · rename_i h
    exact roundDouble_nonneg _ (mul_nonneg (le_of_lt (not_le.1 h)) (getFineRateDouble_nonneg book))

/-- With a rate of 1.0, 0.5 or 0.0 the product with a whole number of days is a `double`
itself, so nothing is rounded. -/
theorem roundDouble_rate_mul_days (book : Book) (n : Int) (hn : |n| < 2 ^ 53)
    (h : ∀ issue, book.cls ≠ BookClass.Magazine issue) :
    roundDouble (book.getFineRateDouble * (n : ℚ)) = book.getFineRate * (n : ℚ) := by
  rw [getFineRateDouble_of_not_magazine book h]
  unfold Book.getFineRate
  split
  · rw [one_mul]
    exact roundDouble_intCast n hn
  · have := roundDouble_of_dyadic n (-1) hn (by norm_num)
    have e : (1 / 2 : ℚ) * (n : ℚ) = (n : ℚ) * 2 ^ (-1 : Int) := by
      norm_num
      ring
    rw [e]
    exact this
  · rename_i issue hcls
    exact absurd hcls (h issue)
  · rw [zero_mul]
    exact roundDouble_zero

/-- On a return after whole days of an item with rate 1.0, 0.5 or 0.0 nothing is rounded:
the fine computed in `double` is the fine computed in exact arithmetic. -/
theorem calculateFineDouble_eq_calculateFine (book : Book) (t0 d : Int)
    (hd : |d * 86400| < 2 ^ 53) (h : ∀ issue, book.cls ≠ BookClass.Magazine issue) :
    LoanManagement.calculateFineDouble book t0 (t0 + d * 86400)
      = LoanManagement.calculateFine book t0 (t0 + d * 86400) := by
  rw [calculateFineDouble_whole_days book t0 d hd, calculateFine_whole_days]
  have hmax : max 0 ((d : ℚ) - 14) = ((max 0 (d - 14) : Int) : ℚ) := by
    push_cast
    rfl
  have hn : |max 0 (d - 14)| < 2 ^ 53 := by
    have h1 : |d| * 86400 < 2 ^ 53 := by
      rw [abs_mul] at hd
      simpa using hd
    rcases max_cases 0 (d - 14) with ⟨hm, -⟩ | ⟨hm, hlt⟩
    · rw [hm]
      norm_num
    · rw [hm, abs_of_pos hlt]
      have := le_abs_self d
      omega
  rw [hmax]
  exact roundDouble_rate_mul_days book _ hn h

/-- C4, amended. A standard patron (loan period 14 days) returns an item exactly `d` whole
days after borrowing it, the `d * 86400` seconds being below `2 ^ 53`.  The call of
`returnBook` succeeds; the fine is the `double` nearest to `rate * max(0, d - 14)`, which is
`rate * max(0, d - 14)` itself when the rate is 1.0, 0.5 or 0.0; the balance becomes the
`double` nearest to the old balance plus the fine when the fine is positive and stays as it
is otherwise, so it grows by exactly the fine whenever that sum is a `double`. -/
theorem late_return_fine_double (lm : LoanManagement) (bookId : Int) (user : User)
    (book : Book) (record : LoanRecord) (d : Int)
    (hstd : user.getBorrowDays = 14)
    (hf : lm.activeLoans.find bookId = some record)
    (hu : record.userId = user.getUserId)
    (hd : |d * 86400| < 2 ^ 53) :
    (lm.returnBookDouble bookId user book (record.borrowDate + d * 86400)).ok = true ∧
      LoanManagement.calculateFineDouble book record.borrowDate
          (record.borrowDate + d * 86400)
        = roundDouble
            (book.getFineRateDouble * max 0 ((d : ℚ) - (user.getBorrowDays : ℚ))) ∧
      ((∀ issue, book.cls ≠ BookClass.Magazine issue) →
        LoanManagement.calculateFineDouble book record.borrowDate
            (record.borrowDate + d * 86400)
          = book.getFineRate * max 0 ((d : ℚ) - (user.getBorrowDays : ℚ))) ∧
      (lm.returnBookDouble bookId user book (record.borrowDate + d * 86400)).user.fines
        = (if LoanManagement.calculateFineDouble book record.borrowDate
              (record.borrowDate + d * 86400) > 0
            then roundDouble (user.fines
              + LoanManagement.calculateFineDouble book record.borrowDate
                  (record.borrowDate + d * 86400))
            else user.fines) ∧
      (roundDouble (user.fines
          + LoanManagement.calculateFineDouble book record.borrowDate
              (record.borrowDate + d * 86400))
          = user.fines
            + LoanManagement.calculateFineDouble book record.borrowDate
                (record.borrowDate + d * 86400) →
        (lm.returnBookDouble bookId user book (record.borrowDate + d * 86400)).user.fines
          = user.fines
            + LoanManagement.calculateFineDouble book record.borrowDate
                (record.borrowDate + d * 86400)) := by
  have hfine := calculateFineDouble_whole_days book record.borrowDate d hd
  have h14 : ((user.getBorrowDays : Int) : ℚ) = 14 := by
    rw [hstd]
    norm_num
  have hbal := returnBookDouble_fines lm bookId user book (record.borrowDate + d * 86400)
    record hf hu
  refine ⟨(returnBookDouble_ok_iff _ _ _ _ _).2 ⟨record, hf, hu⟩, ?_, ?_, hbal, ?_⟩
  · rw [hfine, h14]
  · intro hcls
    rw [hfine, h14]
    have hmax : max 0 ((d : ℚ) - 14) = ((max 0 (d - 14) : Int) : ℚ) := by
      push_cast
      rfl
    have hn : |max 0 (d - 14)| < 2 ^ 53 := by
      have h1 : |d| * 86400 < 2 ^ 53 := by
        rw [abs_mul] at hd
        simpa using hd
      rcases max_cases 0 (d - 14) with ⟨hm, -⟩ | ⟨hm, hlt⟩
      · rw [hm]
        norm_num
      · rw [hm, abs_of_pos hlt]
        have := le_abs_self d
        omega
    rw [hmax]
    exact roundDouble_rate_mul_days book _ hn hcls
  · intro hexact
    rw [hbal]
    split
    · exact hexact
    · rename_i hpos
      have hz : LoanManagement.calculateFineDouble book record.borrowDate
          (record.borrowDate + d * 86400) = 0 :=
        le_antisymm (not_lt.1 hpos) (calculateFineDouble_nonneg _ _ _)
      rw [hz, add_zero]

/-- C4, amended, at the two returns the specification names: a rate-1.0 item held by a
standard patron with no balance is charged 6 after 20 days and nothing after 10 days, and
the balance becomes 6 and stays 0. -/
theorem late_return_fine_double_witness :
    ann.borrowBook.getBorrowDays = 14 ∧
      LoanManagement.calculateFineDouble (novel.setAvailable false) 0 (0 + 20 * 86400) = 6 ∧
      (LoanManagement.returnBookDouble ⟨[(8, ⟨8, 1, 0, 0⟩)]⟩ 8 ann.borrowBook
        (novel.setAvailable false) (0 + 20 * 86400)).user.fines = 6 ∧
      LoanManagement.calculateFineDouble (novel.setAvailable false) 0 (0 + 10 * 86400) = 0 ∧
      (LoanManagement.returnBookDouble ⟨[(8, ⟨8, 1, 0, 0⟩)]⟩ 8 ann.borrowBook
        (novel.setAvailable false) (0 + 10 * 86400)).user.fines = 0 := by
  have hcls : ∀ issue, (novel.setAvailable false).cls ≠ BookClass.Magazine issue := by
    intro issue h
    exact BookClass.noConfusion h
  have hr : (novel.setAvailable false).getFineRate = 1 := rfl
  have hd : ann.borrowBook.getBorrowDays = 14 := by decide
  have h0 : ann.borrowBook.fines = 0 := rfl
  have h20 := late_return_fine_double ⟨[(8, ⟨8, 1, 0, 0⟩)]⟩ 8 ann.borrowBook
    (novel.setAvailable false) ⟨8, 1, 0, 0⟩ 20 (by decide) (by decide) (by decide)
    (by norm_num)
  have h10 := late_return_fine_double ⟨[(8, ⟨8, 1, 0, 0⟩)]⟩ 8 ann.borrowBook
    (novel.setAvailable false) ⟨8, 1, 0, 0⟩ 10 (by decide) (by decide) (by decide)
    (by norm_num)
  have f20 : LoanManagement.calculateFineDouble (novel.setAvailable false) 0 (0 + 20 * 86400)
      = 6 := by
    rw [h20.2.2.1 hcls, hr, hd]
    norm_num
  have f10 : LoanManagement.calculateFineDouble (novel.setAvailable false) 0 (0 + 10 * 86400)
      = 0 := by
    rw [h10.2.2.1 hcls, hr, hd]
    norm_num
  refine ⟨hd, f20, ?_, f10, ?_⟩
  · have hex : roundDouble (ann.borrowBook.fines
        + LoanManagement.calculateFineDouble (novel.setAvailable false) 0 (0 + 20 * 86400))
        = ann.borrowBook.fines
          + LoanManagement.calculateFineDouble (novel.setAvailable false) 0
              (0 + 20 * 86400) := by
      rw [f20, h0]
      have := roundDouble_intCast 6 (by norm_num)
      norm_num at this ⊢
      exact this
    have := h20.2.2.2.2 hex
    rw [f20, h0] at this
    rw [this]
    norm_num
  · have hex : roundDouble (ann.borrowBook.fines
        + LoanManagement.calculateFineDouble (novel.setAvailable false) 0 (0 + 10 * 86400))
        = ann.borrowBook.fines
          + LoanManagement.calculateFineDouble (novel.setAvailable false) 0
              (0 + 10 * 86400) := by
      rw [f10, h0]
      norm_num [roundDouble_zero]
    have := h10.2.2.2.2 hex
    rw [f10, h0] at this
    rw [this]
    norm_num

/-! ## Fractional days in binary64 -/

theorem calculateFineDouble_translation (book : Book) (t0 t1 now0 now1 : Int)
    (h : now0 - t0 = now1 - t1) :
    LoanManagement.calculateFineDouble book t0 now0
      = LoanManagement.calculateFineDouble book t1 now1 := by
  unfold LoanManagement.calculateFineDouble
  rw [h]

/-- The fine in terms of the elapsed seconds, when these are below `2 ^ 53` and so a
`double` themselves. -/
theorem calculateFineDouble_of_seconds (book : Book) (t0 now : Int)
    (hs : |now - t0| < 2 ^ 53) :
    LoanManagement.calculateFineDouble book t0 now
      = if roundDouble (roundDouble (((now - t0 : Int) : ℚ) / 86400) - 14) ≤ 0 then 0
        else roundDouble
          (roundDouble (roundDouble (((now - t0 : Int) : ℚ) / 86400) - 14)
            * book.getFineRateDouble) := by
  unfold LoanManagement.calculateFineDouble
  rw [roundDouble_intCast _ hs]
  norm_num

theorem roundDouble_seconds_le (s : Int) (h : s ≤ 1209600) :
    roundDouble (s : ℚ) ≤ 1209600 := by
  by_cases h0 : s ≤ 0
  · exact le_trans (roundDouble_nonpos _ (by exact_mod_cast h0)) (by norm_num)
  · have hpos : 0 < s := not_le.1 h0
    have hq : (0 : ℚ) < (s : ℚ) := by exact_mod_cast hpos
    have hle : (s : ℚ) ≤ 1209600 := by exact_mod_cast h
    have hu : ulpExp (s : ℚ) ≤ 0 := by
      have := ulpExp_le_of_lt (s : ℚ) 21 (abs_pos.2 (ne_of_gt hq))
        (by rw [abs_of_pos hq]; norm_num; linarith) (by norm_num)
      omega
    exact roundDouble_le _ _ 1209600 0 (by norm_num) hu hle

theorem roundDouble_days_le (y : ℚ) (h : y ≤ 14) : roundDouble y ≤ 14 := by
  by_cases h0 : y ≤ 0
  · exact le_trans (roundDouble_nonpos _ h0) (by norm_num)
  · have hpos : 0 < y := not_le.1 h0
    have hu : ulpExp y ≤ -49 := by
      have := ulpExp_le_of_lt y 4 (abs_pos.2 (ne_of_gt hpos))
        (by rw [abs_of_pos hpos]; norm_num; linarith) (by norm_num)
      omega
    exact roundDouble_le _ _ (14 * 2 ^ 49) (-49) (by norm_num) hu h

/-- Up to 14 days after the loan the fine is zero in binary64 too. -/
theorem calculateFineDouble_within (book : Book) (t0 now : Int)
    (h : now - t0 ≤ 14 * 86400) : LoanManagement.calculateFineDouble book t0 now = 0 := by
  have h1 := roundDouble_seconds_le (now - t0) (by omega)
  have h2 : roundDouble (((now - t0 : Int) : ℚ)) / (60 * 60 * 24) ≤ 14 := by
    rw [div_le_iff₀ (by norm_num)]
    linarith
  have h3 := roundDouble_days_le _ h2
  have h4 : roundDouble
      (roundDouble (roundDouble (((now - t0 : Int) : ℚ)) / (60 * 60 * 24)) - 14) ≤ 0 :=
    roundDouble_nonpos _ (by linarith)
  unfold LoanManagement.calculateFineDouble
  simp only [h4, if_true]

theorem half_le_getFineRateDouble (book : Book) (h : book.canBeBorrowed = true) :
    1 / 2 ≤ book.getFineRateDouble := by
  rw [getFineRateDouble_eq]
  unfold Book.canBeBorrowed at h
  split
  · norm_num
  · norm_num
  · norm_num [sevenTenths]
  · rename_i hcls
    simp [hcls] at h

/-- More than 14 days after the loan, be it by one second, the fine on an item that can
be borrowed is positive in binary64. -/
theorem calculateFineDouble_beyond (book : Book) (t0 now : Int)
    (h : 14 * 86400 < now - t0) (hb : book.canBeBorrowed = true) :
    0 < LoanManagement.calculateFineDouble book t0 now := by
  have hs : (1209601 : ℚ) ≤ ((now - t0 : Int) : ℚ) := by
    have : (1209601 : Int) ≤ now - t0 := by omega
    exact_mod_cast this
  have h1 : (1209601 : ℚ) ≤ roundDouble (((now - t0 : Int) : ℚ)) :=
    le_roundDouble _ _ (1209601 * 2 ^ 32) 20 (by norm_num) (by norm_num) (by norm_num)
      (by norm_num) hs
  have h2 : (14 + 1 / 131072 : ℚ)
      ≤ roundDouble (((now - t0 : Int) : ℚ)) / (60 * 60 * 24) := by
    rw [le_div_iff₀ (by norm_num)]
    have : (14 + 1 / 131072 : ℚ) * (60 * 60 * 24) ≤ 1209601 := by norm_num
    linarith
  have h3 : (14 + 1 / 131072 : ℚ)
      ≤ roundDouble (roundDouble (((now - t0 : Int) : ℚ)) / (60 * 60 * 24)) :=
    le_roundDouble _ _ (1835009 * 2 ^ 32) 3 (by norm_num) (by norm_num) (by norm_num)
      (by norm_num) h2
  have h4 : (1 / 131072 : ℚ)
      ≤ roundDouble
          (roundDouble (roundDouble (((now - t0 : Int) : ℚ)) / (60 * 60 * 24)) - 14) :=
    le_roundDouble _ _ (2 ^ 52) (-17) (by norm_num) (by norm_num) (by norm_num)
      (by norm_num) (by linarith)
  have hrate := half_le_getFineRateDouble book hb
  have h5 : (1 / 262144 : ℚ)
      ≤ roundDouble
          (roundDouble (roundDouble (((now - t0 : Int) : ℚ)) / (60 * 60 * 24)) - 14)
        * book.getFineRateDouble := by
    have : (1 / 131072 : ℚ) * (1 / 2) ≤
        roundDouble
          (roundDouble (roundDouble (((now - t0 : Int) : ℚ)) / (60 * 60 * 24)) - 14)
        * book.getFineRateDouble :=
      mul_le_mul h4 hrate (by norm_num) (le_trans (by norm_num) h4)
    linarith
  have h6 : (1 / 262144 : ℚ)
      ≤ roundDouble
          (roundDouble
              (roundDouble (roundDouble (((now - t0 : Int) : ℚ)) / (60 * 60 * 24)) - 14)
            * book.getFineRateDouble) :=
    le_roundDouble _ _ (2 ^ 52) (-18) (by norm_num) (by norm_num) (by norm_num)
      (by norm_num) h5
  have hD : ¬ roundDouble
      (roundDouble (roundDouble (((now - t0 : Int) : ℚ)) / (60 * 60 * 24)) - 14) ≤ 0 := by
    intro hc
    linarith
  unfold LoanManagement.calculateFineDouble
  simp only [hD, if_false]
  linarith

theorem calculateFineDouble_novel_20_days_12_hours :
    LoanManagement.calculateFineDouble (novel.setAvailable false) 0 (20 * 86400 + 43200)
      = 13 / 2 := by
  rw [calculateFineDouble_of_seconds _ _ _ (by norm_num), getFineRateDouble_eq]
  show (if roundDouble (roundDouble (((20 * 86400 + 43200 - 0 : Int) : ℚ) / 86400) - 14) ≤ 0
    then 0
    else roundDouble
      (roundDouble (roundDouble (((20 * 86400 + 43200 - 0 : Int) : ℚ) / 86400) - 14) * 1))
    = 13 / 2
  have hq : roundDouble (((20 * 86400 + 43200 - 0 : Int) : ℚ) / 86400) = 41 / 2 := by
    have e : (((20 * 86400 + 43200 - 0 : Int) : ℚ) / 86400)
        = ((41 : Int) : ℚ) * 2 ^ (-1 : Int) := by norm_num
    rw [e, roundDouble_of_dyadic _ _ (by norm_num) (by norm_num)]
    norm_num
  have hD : roundDouble ((41 / 2 : ℚ) - 14) = 13 / 2 := by
    have e : ((41 / 2 : ℚ) - 14) = ((13 : Int) : ℚ) * 2 ^ (-1 : Int) := by norm_num
    rw [e, roundDouble_of_dyadic _ _ (by norm_num) (by norm_num)]
    norm_num
  have hD2 : roundDouble (13 / 2 : ℚ) = 13 / 2 := by
    have e : (13 / 2 : ℚ) = ((13 : Int) : ℚ) * 2 ^ (-1 : Int) := by norm_num
    rw [e, roundDouble_of_dyadic _ _ (by norm_num) (by norm_num)]
  rw [hq, hD, mul_one, hD2]
  norm_num

/-- One second past the 14 days, a rate-1.0 item is charged 6515624461 / 2 ^ 49, printed
1.157407407426092e-05: the quotient of the seconds by 86400 is rounded before 14 is
subtracted. -/
theorem calculateFineDouble_novel_one_second_late :
    LoanManagement.calculateFineDouble (novel.setAvailable false) 0 (14 * 86400 + 1)
      = 6515624461 / 562949953421312 := by
  rw [calculateFineDouble_of_seconds _ _ _ (by norm_num), getFineRateDouble_eq]
  show (if roundDouble (roundDouble (((14 * 86400 + 1 - 0 : Int) : ℚ) / 86400) - 14) ≤ 0
    then 0
    else roundDouble
      (roundDouble (roundDouble (((14 * 86400 + 1 - 0 : Int) : ℚ) / 86400) - 14) * 1))
    = 6515624461 / 562949953421312
  have hq : roundDouble (((14 * 86400 + 1 - 0 : Int) : ℚ) / 86400)
      = 7881305863522829 / 562949953421312 := by
    have e : (((14 * 86400 + 1 - 0 : Int) : ℚ) / 86400) = 1209601 / 86400 := by norm_num
    rw [e, roundDouble_eval _ 3 7881305863522829 (by norm_num [abs_of_pos])
      (by norm_num [abs_of_pos]) (by norm_num) (by norm_num [abs_lt])]
    norm_num
  have hD : roundDouble ((7881305863522829 / 562949953421312 : ℚ) - 14)
      = 6515624461 / 562949953421312 := by
    have e : ((7881305863522829 / 562949953421312 : ℚ) - 14)
        = ((6515624461 : Int) : ℚ) * 2 ^ (-49 : Int) := by norm_num
    rw [e, roundDouble_of_dyadic _ _ (by norm_num) (by norm_num)]
    norm_num
  rw [hq, hD, mul_one]
  have hD' : roundDouble (6515624461 / 562949953421312 : ℚ)
      = 6515624461 / 562949953421312 := by
    have e : (6515624461 / 562949953421312 : ℚ)
        = ((6515624461 : Int) : ℚ) * 2 ^ (-49 : Int) := by norm_num
    rw [e, roundDouble_of_dyadic _ _ (by norm_num) (by norm_num)]
  rw [hD']
  norm_num

/-- C17, amended. For every item, every patron whose loan period is 14 days and every borrow
time, the fine charged by a successful `returnBook` is computed from the elapsed time
`now - borrowDate` in days as a fraction, not rounded down to whole days, and depends on
the two times only through `now - borrowDate`.  It is zero, and the balance unchanged, while
the elapsed time is at most 14 days; as soon as the elapsed time exceeds 14 days, be it by
a second, the fine on an item that can be borrowed is positive and the balance becomes the
`double` nearest to the old balance plus the fine. -/
theorem fine_counts_fractional_days (lm : LoanManagement) (bookId : Int) (user : User)
    (book : Book) (record : LoanRecord) (now : Int)
    (hstd : user.getBorrowDays = 14)
    (hf : lm.activeLoans.find bookId = some record)
    (hu : record.userId = user.getUserId) :
    (lm.returnBookDouble bookId user book now).ok = true ∧
      (now - record.borrowDate ≤ user.getBorrowDays * 86400 →
        LoanManagement.calculateFineDouble book record.borrowDate now = 0 ∧
          (lm.returnBookDouble bookId user book now).user.fines = user.fines) ∧
      (user.getBorrowDays * 86400 < now - record.borrowDate → book.canBeBorrowed = true →
        0 < LoanManagement.calculateFineDouble book record.borrowDate now ∧
          (lm.returnBookDouble bookId user book now).user.fines
            = roundDouble
                (user.fines + LoanManagement.calculateFineDouble book record.borrowDate now)) ∧
      (|now - record.borrowDate| < 2 ^ 53 →
        LoanManagement.calculateFineDouble book record.borrowDate now
          = if roundDouble
                (roundDouble (((now - record.borrowDate : Int) : ℚ) / 86400)
                  - (user.getBorrowDays : ℚ)) ≤ 0
            then 0
            else roundDouble
              (roundDouble
                  (roundDouble (((now - record.borrowDate : Int) : ℚ) / 86400)
                    - (user.getBorrowDays : ℚ))
                * book.getFineRateDouble)) ∧
      (∀ t0 t1 now0 now1 : Int, now0 - t0 = now1 - t1 →
        LoanManagement.calculateFineDouble book t0 now0
          = LoanManagement.calculateFineDouble book t1 now1) := by
  have h14 : ((user.getBorrowDays : Int) : ℚ) = 14 := by
    rw [hstd]
    norm_num
  have hbal := returnBookDouble_fines lm bookId user book now record hf hu
  refine ⟨(returnBookDouble_ok_iff _ _ _ _ _).2 ⟨record, hf, hu⟩, ?_, ?_, ?_,
    calculateFineDouble_translation book⟩
  · intro hle
    rw [hstd] at hle
    have hz := calculateFineDouble_within book record.borrowDate now hle
    refine ⟨hz, ?_⟩
    rw [hbal, hz]
    simp
  · intro hlt hb
    rw [hstd] at hlt
    have hpos := calculateFineDouble_beyond book record.borrowDate now hlt hb
    refine ⟨hpos, ?_⟩
    rw [hbal, if_pos hpos]
  · intro hs
    rw [calculateFineDouble_of_seconds _ _ _ hs, h14]

/-- C17, amended, at three returns of a rate-1.0 item by a standard patron with no balance:
after exactly 20 days the balance is 6, after 20 days and 12 hours it is 13/2, and after
14 days and one second it is positive. -/
theorem fine_counts_fractional_days_witness :
    ann.borrowBook.getBorrowDays = 14 ∧
      (LoanManagement.returnBookDouble ⟨[(8, ⟨8, 1, 0, 0⟩)]⟩ 8 ann.borrowBook
        (novel.setAvailable false) (20 * 86400)).user.fines = 6 ∧
      (LoanManagement.returnBookDouble ⟨[(8, ⟨8, 1, 0, 0⟩)]⟩ 8 ann.borrowBook
        (novel.setAvailable false) (20 * 86400 + 43200)).user.fines = 13 / 2 ∧
      0 < LoanManagement.calculateFineDouble (novel.setAvailable false) 0 (14 * 86400 + 1) ∧
      LoanManagement.calculateFineDouble (novel.setAvailable false) 0 (14 * 86400 + 1)
        = 6515624461 / 562949953421312 := by
  have hd : ann.borrowBook.getBorrowDays = 14 := by decide
  have h0 : ann.borrowBook.fines = 0 := rfl
  have hb : (novel.setAvailable false).canBeBorrowed = true := by decide
  have h20 := (fine_counts_fractional_days ⟨[(8, ⟨8, 1, 0, 0⟩)]⟩ 8 ann.borrowBook
    (novel.setAvailable false) ⟨8, 1, 0, 0⟩ (20 * 86400) (by decide) (by decide)
    (by decide)).2.2.1 (by decide) hb
  have h205 := (fine_counts_fractional_days ⟨[(8, ⟨8, 1, 0, 0⟩)]⟩ 8 ann.borrowBook
    (novel.setAvailable false) ⟨8, 1, 0, 0⟩ (20 * 86400 + 43200) (by decide) (by decide)
    (by decide)).2.2.1 (by decide) hb
  have h1s := (fine_counts_fractional_days ⟨[(8, ⟨8, 1, 0, 0⟩)]⟩ 8 ann.borrowBook
    (novel.setAvailable false) ⟨8, 1, 0, 0⟩ (14 * 86400 + 1) (by decide) (by decide)
    (by decide)).2.2.1 (by decide) hb
  have f20 : LoanManagement.calculateFineDouble (novel.setAvailable false) 0 (20 * 86400)
      = 6 := by
    have h := calculateFineDouble_whole_days (novel.setAvailable false) 0 20 (by norm_num)
    have e : (0 : Int) + 20 * 86400 = 20 * 86400 := by norm_num
    rw [e] at h
    rw [h, getFineRateDouble_eq]
    show roundDouble (1 * max 0 (((20 : Int) : ℚ) - 14)) = 6
    have e2 : (1 : ℚ) * max 0 (((20 : Int) : ℚ) - 14) = ((6 : Int) : ℚ) := by norm_num
    rw [e2, roundDouble_intCast 6 (by norm_num)]
    norm_num
  refine ⟨hd, ?_, ?_, h1s.1, calculateFineDouble_novel_one_second_late⟩
  · rw [h20.2, h0]
    show roundDouble (0 + LoanManagement.calculateFineDouble (novel.setAvailable false) 0
      (20 * 86400)) = 6
    rw [f20]
    have := roundDouble_intCast 6 (by norm_num)
    norm_num at this ⊢
    exact this
  · rw [h205.2, h0]
    show roundDouble (0 + LoanManagement.calculateFineDouble (novel.setAvailable false) 0
      (20 * 86400 + 43200)) = 13 / 2
    rw [calculateFineDouble_novel_20_days_12_hours]
    have e : (0 : ℚ) + 13 / 2 = ((13 : Int) : ℚ) * 2 ^ (-1 : Int) := by norm_num
    rw [e, roundDouble_of_dyadic _ _ (by norm_num) (by norm_num)]
    norm_num

end Library
